import Mathlib

/-!
Verification development for the retry-service repository.

The definitions below are a shallow embedding of `src/retry-service/Retry.service.ts`
and `src/logger-service/Logger.service.ts`.  JavaScript values that the engine
inspects are modelled by `JsVal`; thrown values by `Thrown` (JS code may throw
values that are not `Error` instances); the collaborating timer, operation and
logging sink are modelled as deterministic call-indexed streams in `World`, and
the side effects of one `retry(...)` call (clock reads, operation invocations,
logging-sink invocations, awaited delays, reports passed to `onComplete`) are
threaded through `EngineState`.

Promise-based control flow is sequential in the source (each `await` fully
completes before the next step), so the engine is embedded as a pure recursive
function.  Caller-supplied predicates (`retryOnError`, `retryOnResult`) and the
`onComplete` hook are modelled as pure (non-throwing) functions.
-/

namespace RetrySpec

/-- Model of a JavaScript `Error` object as the engine observes it: its `name`,
its `message`, and its optional `cause`. -/
inductive JsError where
  | mk (name : String) (message : String) (cause : Option JsError)

def JsError.name : JsError → String
  | .mk n _ _ => n

def JsError.message : JsError → String
  | .mk _ m _ => m

def JsError.cause : JsError → Option JsError
  | .mk _ _ c => c

/-- Model of a JavaScript value as far as the engine inspects one: `null`,
`undefined`, primitives (strings, numbers, booleans), or an object.  For an
object the engine only ever looks at `value.constructor?.name` (modelled by
`ctorName`, `none` when the constructor or its name is unavailable) and at
`JSON.stringify(value)` (modelled by `json`; `none` means serialization throws,
e.g. for a circular structure). -/
inductive JsVal where
  | nullV
  | undef
  | str (s : String)
  | num (n : Int)
  | boolV (b : Bool)
  | obj (ctorName : Option String) (json : Option String)
deriving DecidableEq

/-- A thrown JavaScript value: the value itself, the `Error` data when the value
is an `Error` instance (`errData = none` models a thrown non-`Error` value), and
`String(value)` (used by `new Error(String(error))` when wrapping). -/
structure Thrown where
  val : JsVal
  errData : Option JsError
  strRepr : String

/-- Outcome of one invocation of the retried operation: it resolves to a value
or rejects with a thrown value. -/
inductive OpResult where
  | ok (v : JsVal)
  | thrown (t : Thrown)

/-- The `type` discriminator of a retry reason (`"error" | "result"`). -/
inductive ReasonType where
  | error
  | result
deriving DecidableEq

/-- One entry of `RetryReport.retryReasons`. -/
structure RetryReason where
  rtype : ReasonType
  value : JsVal

/-- Mirror of the `RetryReport` interface (Retry.service.ts lines 120-129).
`timedOut` and `retryReasons` are optional fields, absent until first set. -/
structure RetryReport where
  startTime : Int
  totalTime : Int
  attempts : Int
  errors : List JsError
  delays : List Int
  retryingOperationSucceeded : Bool
  timedOut : Option Bool
  retryReasons : Option (List RetryReason)

/-! ### Report builder

`RetryReportBuilder` is an immutable copy-on-write wrapper around a
`RetryReport`; each `withX` method returns a new builder.  The embedding
operates on the wrapped report value directly. -/

/-- Mirror of `new RetryReportBuilder(startTime)` (lines 141-150). -/
def initialReport (startTime : Int) : RetryReport :=
  { startTime := startTime
    totalTime := 0
    attempts := 0
    errors := []
    delays := []
    retryingOperationSucceeded := false
    timedOut := none
    retryReasons := none }

/-- Mirror of `withAttempt` (lines 170-174). -/
def withAttempt (r : RetryReport) : RetryReport :=
  { r with attempts := r.attempts + 1 }

/-- Mirror of `error instanceof Error ? error : new Error(String(error))` in
`withError` (line 180): a thrown non-`Error` value is wrapped into an
Error-shaped record whose message is `String(error)`. -/
def thrownToError (t : Thrown) : JsError :=
  match t.errData with
  | some e => e
  | none => .mk "Error" t.strRepr none

/-- Mirror of `withError` (lines 179-185). -/
def withError (r : RetryReport) (t : Thrown) : RetryReport :=
  { r with errors := r.errors ++ [thrownToError t] }

/-- Mirror of `withDelay` (lines 190-194). -/
def withDelay (r : RetryReport) (d : Int) : RetryReport :=
  { r with delays := r.delays ++ [d] }

/-- Mirror of `sanitizeForLogging` (lines 229-251).  The first guard
`!shouldSanitize || value == null || typeof value !== "object"` returns every
non-object (and `null`/`undefined`) unchanged; otherwise `JSON.stringify` is
attempted (`json = none` models it throwing), the value is kept when the
serialized length is within the threshold, and a placeholder string is produced
otherwise, using `value.constructor?.name || "Object"` as the type name. -/
def sanitizeForLogging (value : JsVal) (shouldSanitize : Bool) (threshold : Int) : JsVal :=
  match shouldSanitize, value with
  | false, v => v
  | true, .obj ctorName json =>
    match json with
    | none => .str "[Unstringifiable Object]"
    | some j =>
      if (j.length : Int) ≤ threshold then .obj ctorName json
      else
        let objType :=
          match ctorName with
          | some s => if s = "" then "Object" else s
          | none => "Object"
        .str ("[Large " ++ objType ++ ": " ++ toString j.length ++ " chars]")
  | true, v => v

/-- Mirror of `withRetryReason` (lines 203-219): appends one sanitized entry to
`retryReasons`, treating an absent list as empty. -/
def withRetryReason (r : RetryReport) (rtype : ReasonType) (value : JsVal)
    (sanitize : Bool) (threshold : Int) : RetryReport :=
  let sanitizedValue := sanitizeForLogging value sanitize threshold
  { r with retryReasons := some ((r.retryReasons.getD []) ++ [⟨rtype, sanitizedValue⟩]) }

/-- Mirror of `withSuccess` (lines 256-261). -/
def withSuccess (r : RetryReport) (currentTime : Int) : RetryReport :=
  { r with retryingOperationSucceeded := true, totalTime := currentTime - r.startTime }

/-- Mirror of `withTimeout` (lines 266-271). -/
def withTimeout (r : RetryReport) (currentTime : Int) : RetryReport :=
  { r with timedOut := some true, totalTime := currentTime - r.startTime }

/-- Mirror of `withFailure` (lines 276-281). -/
def withFailure (r : RetryReport) (currentTime : Int) : RetryReport :=
  { r with retryingOperationSucceeded := false, totalTime := currentTime - r.startTime }

/-- Mirror of `build` (lines 287-301): validates the report and returns it, or
fails with a `RetryReportValidationError` message. -/
def buildReport (r : RetryReport) : Except String RetryReport :=
  if r.totalTime < 0 then .error "Invalid report: totalTime cannot be negative"
  else if r.attempts < 0 then .error "Invalid report: attempts cannot be negative"
  else .ok r

/-! ### Logger model (Logger.service.ts)

The engine's `this.logger` is the exported `Logger` instance (`retryService =
new RetryService(logger)`), whose leveled methods filter by priority and route
every call to the underlying sink through `tryLog`, which swallows sink
failures. -/

/-- The five log levels of `Logger.service.ts`. -/
inductive LogLevel where
  | trace
  | debug
  | info
  | warn
  | error
deriving DecidableEq

/-- Mirror of `LOG_LEVEL_PRIORITY` (lines 61-67). -/
def logLevelPriority : LogLevel → Nat
  | .trace => 1
  | .debug => 2
  | .info => 3
  | .warn => 4
  | .error => 5

/-- Mirror of `isLoggable` (lines 103-108). -/
def isLoggable (currentLevel targetLevel : LogLevel) : Bool :=
  logLevelPriority targetLevel ≥ logLevelPriority currentLevel

/-- Mirror of `tryLog` (lines 110-121): the sink call's outcome — which may be
a thrown error — is discarded either way; sink failures never escape. -/
def tryLog (sinkOutcome : Except JsError Unit) : Unit :=
  match sinkOutcome with
  | .ok _ => ()
  | .error _ => ()

/-! ### World and engine state

One `retry(...)` call interacts with the outside world only through the timer
(`now()`/`delay(ms)`), the operation, the logging sink and the `onComplete`
hook.  All are deterministic streams indexed by how often they have been
called. -/

/-- The deterministic environment of one `retry(...)` call: `clock k` is the
value returned by the k-th `timer.now()` call, `op k` the outcome of the k-th
operation invocation, `logLevel` the `Logger`'s configured level, and
`handler k` the outcome (normal return or thrown error) of the k-th invocation
of the underlying logging sink. -/
structure World where
  clock : Nat → Int
  op : Nat → OpResult
  logLevel : LogLevel
  handler : Nat → Except JsError Unit

/-- Observable side effects of a run: counts of `now()` calls, operation
invocations and sink invocations, the list of durations passed to
`timer.delay`, and the reports passed to `onComplete`, in order. -/
structure EngineState where
  nowCalls : Nat
  opCalls : Nat
  logCalls : Nat
  waits : List Int
  completed : List RetryReport

def EngineState.init : EngineState :=
  { nowCalls := 0, opCalls := 0, logCalls := 0, waits := [], completed := [] }

/-- One `timer.now()` call. -/
def readNow (W : World) (st : EngineState) : Int × EngineState :=
  (W.clock st.nowCalls, { st with nowCalls := st.nowCalls + 1 })

/-- One `this.logger.debug(...)` call: the `Logger` filters by level and routes
the sink call through `tryLog`, whose result (even for a throwing sink) is
discarded. -/
def loggerDebug (W : World) (st : EngineState) : EngineState :=
  if isLoggable W.logLevel .debug then
    let _ := tryLog (W.handler st.logCalls)
    { st with logCalls := st.logCalls + 1 }
  else st

/-- One invocation `await fn()` of the retried operation. -/
def callOp (W : World) (st : EngineState) : OpResult × EngineState :=
  (W.op st.opCalls, { st with opCalls := st.opCalls + 1 })

/-! ### Error taxonomy surfaced by the engine -/

/-- What a `retry(...)` call can fail with: a rethrown operation value
(`original`, surfaced verbatim), or one of the `RetryError` subclasses thrown
by the engine itself.  `RetryTimeoutError` always carries the message
"Retry timeout exceeded"; `attemptsExceeded` stores its composed message. -/
inductive Raised where
  | original (t : Thrown)
  | timeoutErr (cause : Option JsError)
  | attemptsExceeded (message : String) (cause : JsError)
  | configurationErr (message : String)
  | reportValidationErr (message : String)

def raisedName : Raised → String
  | .original _ => "Error"
  | .timeoutErr _ => "RetryTimeoutError"
  | .attemptsExceeded _ _ => "RetryAttemptsExceededError"
  | .configurationErr _ => "RetryConfigurationError"
  | .reportValidationErr _ => "RetryReportValidationError"

def raisedMessage : Raised → String
  | .original t => t.strRepr
  | .timeoutErr _ => "Retry timeout exceeded"
  | .attemptsExceeded m _ => m
  | .configurationErr m => m
  | .reportValidationErr m => m

def raisedCause : Raised → Option JsError
  | .original _ => none
  | .timeoutErr c => c
  | .attemptsExceeded _ c => some c
  | .configurationErr _ => none
  | .reportValidationErr _ => none

/-- Approximate model of `JSON.stringify` on a `RetryError` instance: the own
enumerable properties assigned by `RetryError`'s constructor are `name` and
(when defined) `cause`; the cause object is serialized by the same rule.  Only
the sanitizer ever looks at this string. -/
def errObjJson : JsError → String
  | .mk n _ c =>
    match c with
    | none => "\x7b\"name\":\"" ++ n ++ "\"\x7d"
    | some e => "\x7b\"name\":\"" ++ n ++ "\",\"cause\":" ++ errObjJson e ++ "\x7d"

/-- The engine-raised errors viewed as thrown JavaScript values.  This is how a
raise from a nested recursive `attempt` call looks to an enclosing frame's
`catch` block.  A rethrown `original` value is the very same thrown value. -/
def raisedToThrown (r : Raised) : Thrown :=
  match r with
  | .original t => t
  | r =>
    let e : JsError := .mk (raisedName r) (raisedMessage r) (raisedCause r)
    { val := .obj (some (raisedName r)) (some (errObjJson e))
      errData := some e
      strRepr := raisedName r ++ ": " ++ raisedMessage r }

/-- Does evaluating `JSON.stringify(value)` throw (circular structure)?  Used
by the debug-log template literal on line 404. -/
def stringifyThrows : JsVal → Bool
  | .obj _ none => true
  | _ => false

/-- The `TypeError` thrown by `JSON.stringify` on a circular structure (raised
while building the debug-log message on lines 403-407, inside the `try`
block). -/
def stringifyTypeError : Thrown :=
  { val := .obj (some "TypeError") (some "\x7b\x7d")
    errData := some (.mk "TypeError" "Converting circular structure to JSON" none)
    strRepr := "TypeError: Converting circular structure to JSON" }

/-! ### Retry options and validation -/

/-- Mirror of the `RetryOptions` interface (lines 74-118).  Optional fields are
`Option`s; the caller-supplied predicates are modelled as pure functions on the
thrown value / result value; `hasOnComplete` records whether an `onComplete`
callback is supplied (the callback itself is modelled as a pure observer whose
received reports are collected in `EngineState.completed`). -/
structure RetryOptions where
  retries : Int
  delayOpt : Option Int
  exponentialBackoff : Bool
  retryOnErrorOpt : Option (Thrown → Bool)
  retryOnResultOpt : Option (JsVal → Bool)
  timeoutOpt : Option Int
  hasOnComplete : Bool
  sanitizeRetryReasonsOpt : Option Bool
  sanitizationThresholdOpt : Option Int

/-- Mirror of `options.sanitizeRetryReasons !== false` (lines 473, 600). -/
def sanitizeEnabled (opts : RetryOptions) : Bool :=
  match opts.sanitizeRetryReasonsOpt with
  | some false => false
  | _ => true

/-- Mirror of `validateOptions` (lines 344-367): returns the
`RetryConfigurationError` message of the first failing check, or `none` when
the options are valid. -/
def validateOptions (opts : RetryOptions) : Option String :=
  if opts.retries < 0 then some "Negative retries"
  else if opts.delayOpt.any (fun d => d < 0) then some "Delay cannot be negative"
  else if opts.timeoutOpt.any (fun t => t ≤ 0) then some "Timeout must be greater than zero"
  else if opts.sanitizationThresholdOpt.any (fun s => s < 0) then
    some "Sanitization threshold cannot be negative"
  else none

/-! ### The attempt engine -/

/-- Result of a run: the resolved value or raised error, together with the
final observable state. -/
abbrev Res := Except Raised JsVal × EngineState

/-- Mirror of `calculateDelay` (lines 620-628).  `retriesLeft` is a `Nat`
because `retry` clamps it with `Math.max(0, options.retries)` and it only ever
decreases to 0. -/
def calculateDelay (opts : RetryOptions) (retriesLeft : Nat) (baseDelay : Int) : Int :=
  if opts.exponentialBackoff then baseDelay * (opts.retries - (retriesLeft : Int) + 1)
  else baseDelay

/-- Mirror of `isTimedOut` (lines 425-427): `Boolean(timeout && now() > timeout)`.
JavaScript `&&` short-circuits on a falsy deadline (`null`, or the number `0`),
in which case `now()` is not called at all. -/
def isTimedOut (W : World) (deadline : Option Int) (st : EngineState) : Bool × EngineState :=
  match deadline with
  | none => (false, st)
  | some d =>
    if d = 0 then (false, st)
    else
      let (tnow, st1) := readNow W st
      (decide (tnow > d), st1)

/-- Appends the finalized report to `completed` when an `onComplete` callback
is configured (`if (options.onComplete) options.onComplete(finalReport)`). -/
def fireOnComplete (opts : RetryOptions) (finalReport : RetryReport) (st : EngineState) :
    EngineState :=
  if opts.hasOnComplete then { st with completed := st.completed ++ [finalReport] } else st

/-- Mirror of `handleTimeout` (lines 429-447): log, finalize with
`withTimeout(now())`, attach the most recent recorded error as cause when one
exists, invoke `onComplete`, and raise `RetryTimeoutError`.  A `build()`
validation failure raises `RetryReportValidationError` instead (before
`onComplete`). -/
def handleTimeout (W : World) (opts : RetryOptions) (b : RetryReport) (st : EngineState) : Res :=
  let st1 := loggerDebug W st
  let (tnow, st2) := readNow W st1
  match buildReport (withTimeout b tnow) with
  | .error m => (.error (.reportValidationErr m), st2)
  | .ok finalReport =>
    let maybeLastError := finalReport.errors.getLast?
    let st3 := fireOnComplete opts finalReport st2
    (.error (.timeoutErr maybeLastError), st3)

/-- Mirror of `handleSuccess` (lines 493-505): finalize with
`withSuccess(now())`, invoke `onComplete`, return the result. -/
def handleSuccess (W : World) (opts : RetryOptions) (result : JsVal) (b : RetryReport)
    (st : EngineState) : Res :=
  let (tnow, st1) := readNow W st
  match buildReport (withSuccess b tnow) with
  | .error m => (.error (.reportValidationErr m), st1)
  | .ok finalReport =>
    let st2 := fireOnComplete opts finalReport st1
    (.ok result, st2)

/-- Mirror of `handleNonRetryableError` (lines 548-574): log, finalize with
`withFailure(now())`, invoke `onComplete`, then raise
`RetryAttemptsExceededError` wrapping the error when retries were wanted but
exhausted AND the thrown value is an `Error` instance, and rethrow the thrown
value verbatim otherwise.  `retriesLeft ≤ 0` of the source is `retriesLeft = 0`
on `Nat`. -/
def handleNonRetryableError (W : World) (opts : RetryOptions) (t : Thrown)
    (retriesLeft : Nat) (shouldRetry : Bool) (b : RetryReport) (st : EngineState) : Res :=
  let st1 := loggerDebug W st
  let (tnow, st2) := readNow W st1
  match buildReport (withFailure b tnow) with
  | .error m => (.error (.reportValidationErr m), st2)
  | .ok finalReport =>
    let st3 := fireOnComplete opts finalReport st2
    match t.errData, retriesLeft == 0 && shouldRetry with
    | some e, true =>
      (.error (.attemptsExceeded
        ("Maximum retry attempts (" ++ toString opts.retries ++ ") exceeded: " ++ e.message) e),
       st3)
    | _, _ => (.error (.original t), st3)

/-- Mirror of `retryAfterError` (lines 576-618): compute the delay, log, append
the (sanitized) retry reason and the delay to the report, await the delay when
it is nonzero (JS truthiness), and recurse via the continuation `k`, which is
`attempt` at `retriesLeft - 1`. -/
def retryAfterError (W : World) (opts : RetryOptions) (t : Thrown) (retriesLeft : Nat)
    (baseDelay : Int) (threshold : Int) (b : RetryReport) (st : EngineState)
    (k : RetryReport → EngineState → Res) : Res :=
  let currentDelay := calculateDelay opts retriesLeft baseDelay
  let st1 := loggerDebug W st
  let b1 := withDelay (withRetryReason b .error t.val (sanitizeEnabled opts) threshold)
    currentDelay
  let st2 := if currentDelay ≠ 0 then { st1 with waits := st1.waits ++ [currentDelay] } else st1
  k b1 st2

/-- Mirror of `handleRetryableResult` (lines 449-491): same shape as
`retryAfterError` with a `"result"` retry reason. -/
def handleRetryableResult (W : World) (opts : RetryOptions) (result : JsVal)
    (retriesLeft : Nat) (baseDelay : Int) (threshold : Int) (b : RetryReport)
    (st : EngineState) (k : RetryReport → EngineState → Res) : Res :=
  let currentDelay := calculateDelay opts retriesLeft baseDelay
  let st1 := loggerDebug W st
  let b1 := withDelay (withRetryReason b .result result (sanitizeEnabled opts) threshold)
    currentDelay
  let st2 := if currentDelay ≠ 0 then { st1 with waits := st1.waits ++ [currentDelay] } else st1
  k b1 st2

/-- Mirror of `const shouldRetry = !options.retryOnError ||
options.retryOnError(error)` (line 524): an absent predicate means "retry on
any error". -/
def shouldRetryEval (opts : RetryOptions) (t : Thrown) : Bool :=
  match opts.retryOnErrorOpt with
  | none => true
  | some p => p t

/-- Mirror of `handleError` (lines 507-546).  `retryK` is the recursive
continuation `attempt` at `retriesLeft - 1`; the caller passes `none` exactly
when `retriesLeft = 0`, so the source's test `!shouldRetry || retriesLeft <= 0`
becomes: `none` ⇒ non-retryable, `some k` ⇒ retry only when `shouldRetry`. -/
def handleError (W : World) (opts : RetryOptions) (t : Thrown) (retriesLeft : Nat)
    (baseDelay : Int) (threshold : Int) (retryK : Option (RetryReport → EngineState → Res))
    (b : RetryReport) (st : EngineState) : Res :=
  let st1 := loggerDebug W st
  let b1 := withError b t
  let shouldRetry := shouldRetryEval opts t
  match retryK with
  | none => handleNonRetryableError W opts t retriesLeft shouldRetry b1 st1
  | some k =>
    if shouldRetry then retryAfterError W opts t retriesLeft baseDelay threshold b1 st1 k
    else handleNonRetryableError W opts t retriesLeft shouldRetry b1 st1

/-- Mirror of `options.retryOnResult && options.retryOnResult(result)` (line
389): an absent predicate means "never retry on result". -/
def resultRetryable (opts : RetryOptions) (v : JsVal) : Bool :=
  match opts.retryOnResultOpt with
  | some p => p v
  | none => false

/-- Converts a raise escaping the `try` block of `attempt` (lines 384-410) into
the thrown value the `catch` block observes. -/
def toTryOutcome (r : Res) : Except Thrown JsVal × EngineState :=
  match r with
  | (.ok v, st) => (.ok v, st)
  | (.error raised, st) => (.error (raisedToThrown raised), st)

/-- The `catch` block of `attempt` (lines 411-422), applied to the outcome of
the `try` block: a caught thrown value is handed to `handleError` with THIS
frame's post-`withAttempt` builder `b1`. -/
def tryCatch (W : World) (opts : RetryOptions) (bd thr : Int) (rl : Nat)
    (retryK : Option (RetryReport → EngineState → Res)) (b1 : RetryReport)
    (X : Except Thrown JsVal × EngineState) : Res :=
  match X with
  | (.ok v, st5) => (.ok v, st5)
  | (.error t, st5) => handleError W opts t rl bd thr retryK b1 st5

/-- Body of one iteration of `attempt` (lines 369-423), parameterized by the
recursive continuation `retryK = attempt (retriesLeft - 1)` (`none` exactly
when `retriesLeft = 0`).

Faithful control-flow detail: the `try` block spans lines 384-410, so it covers
the `await fn()` call, the `return await this.handleRetryableResult(...)` of
the result-retry path (a raise from that nested recursion is caught and fed to
`handleError` of THIS frame, with this frame's builder), the debug-log template
literal `JSON.stringify(result)` of lines 403-407 (which throws a `TypeError`
for an unserializable result), and `handleSuccess` (whose `build()` validation
failure would likewise be caught).  `handleError` is invoked from the `catch`
block, so raises from ITS recursion propagate without being re-caught here. -/
def attemptStep (W : World) (opts : RetryOptions) (baseDelay : Int) (deadline : Option Int)
    (threshold : Int) (retriesLeft : Nat)
    (retryK : Option (RetryReport → EngineState → Res))
    (b : RetryReport) (st : EngineState) : Res :=
  let b1 := withAttempt b
  let (tko, st1) := isTimedOut W deadline st
  if tko then handleTimeout W opts b1 st1
  else
    let st2 := loggerDebug W st1
    let (opRes, st3) := callOp W st2
    let tryOutcome : Except Thrown JsVal × EngineState :=
      match opRes with
      | .thrown t => (.error t, st3)
      | .ok v =>
        if resultRetryable opts v then
          match retryK with
          | some k =>
            toTryOutcome (handleRetryableResult W opts v retriesLeft baseDelay threshold b1 st3 k)
          | none =>
            if stringifyThrows v then (.error stringifyTypeError, st3)
            else
              let st4 := loggerDebug W st3
              toTryOutcome (handleSuccess W opts v b1 st4)
        else toTryOutcome (handleSuccess W opts v b1 st3)
    tryCatch W opts baseDelay threshold retriesLeft retryK b1 tryOutcome

/-- Mirror of the recursive `attempt` (lines 369-423), by structural recursion
on `retriesLeft`. -/
def attempt (W : World) (opts : RetryOptions) (baseDelay : Int) (deadline : Option Int)
    (threshold : Int) : Nat → RetryReport → EngineState → Res
  | 0 => attemptStep W opts baseDelay deadline threshold 0 none
  | m + 1 =>
    attemptStep W opts baseDelay deadline threshold (m + 1)
      (some (attempt W opts baseDelay deadline threshold m))

/-- The local bindings computed by `retry` before entering the loop. -/
structure SetupResult where
  retries : Nat
  baseDelay : Int
  deadline : Option Int
  threshold : Int
  startTime : Int
  state : EngineState

/-- Mirror of lines 326-331 of `retry`: clamped retries and delay, the absolute
deadline (`this.timer.now() + options.timeout`, one `now()` call made only when
`options.timeout` is truthy), the sanitization threshold, and the report
builder's `startTime` (a second, later `now()` call). -/
def retrySetup (W : World) (opts : RetryOptions) : SetupResult :=
  let retries := (max 0 opts.retries).toNat
  let baseDelay := max 0 (opts.delayOpt.getD 0)
  let (deadline, st1) :=
    match opts.timeoutOpt with
    | some t0 =>
      if t0 = 0 then (none, EngineState.init)
      else
        let (n0, st') := readNow W EngineState.init
        (some (n0 + t0), st')
    | none => (none, EngineState.init)
  let threshold := opts.sanitizationThresholdOpt.getD 500
  let (startT, st2) := readNow W st1
  { retries := retries, baseDelay := baseDelay, deadline := deadline,
    threshold := threshold, startTime := startT, state := st2 }

/-- Mirror of `retry` (lines 320-342): validate (failing with
`RetryConfigurationError` before anything else happens), set up, and run the
attempt loop on a fresh report. -/
def retryModel (W : World) (opts : RetryOptions) : Res :=
  match validateOptions opts with
  | some m => (.error (.configurationErr m), EngineState.init)
  | none =>
    let s := retrySetup W opts
    attempt W opts s.baseDelay s.deadline s.threshold s.retries (initialReport s.startTime)
      s.state

/-! ### Basic facts about the embedding -/

/-- Is the value of JavaScript object type (the `typeof value === "object"`
values other than `null`, which the sanitizer's guard handles separately)? -/
def JsVal.isObjectType : JsVal → Bool
  | .obj _ _ => true
  | _ => false

lemma validateOptions_eq_none (opts : RetryOptions) :
    validateOptions opts = none ↔
      0 ≤ opts.retries ∧ (∀ d ∈ opts.delayOpt, 0 ≤ d) ∧
        (∀ t0 ∈ opts.timeoutOpt, 0 < t0) ∧ (∀ s ∈ opts.sanitizationThresholdOpt, 0 ≤ s) := by
  unfold validateOptions
  rcases hd : opts.delayOpt with _ | d <;> rcases ht : opts.timeoutOpt with _ | t0 <;>
    rcases hs : opts.sanitizationThresholdOpt with _ | s <;>
      simp [Option.any, hd, ht, hs] <;> split_ifs <;> simp_all

/-! ### Claim C8 (sanitizer contract) -/

/-- Claim C8, counterexample: the claim states the oversize placeholder is the
string `Large <TypeName>: <N> chars` and the serialization-failure placeholder
is `Unstringifiable Object`; the code (lines 247 and 249) produces those texts
wrapped in square brackets, so the claimed strings are not the returned
values. -/
theorem sanitizeForLogging_placeholder_brackets :
    sanitizeForLogging (.obj (some "Object") (some "ab")) true 1 =
        .str "[Large Object: 2 chars]"
      ∧ "[Large Object: 2 chars]" ≠ "Large Object: 2 chars"
      ∧ sanitizeForLogging (.obj none none) true 1 = .str "[Unstringifiable Object]"
      ∧ "[Unstringifiable Object]" ≠ "Unstringifiable Object" := by
  refine ⟨rfl, by decide, rfl, by decide⟩

/-- Claim C8 (amended: the placeholders carry surrounding square brackets,
`[Large <TypeName>: <N> chars]` and `[Unstringifiable Object]`):
`sanitize(value, enabled, threshold)` returns the value unchanged when
sanitization is disabled or the value is null/not an object; returns the
identical original value when the serialized length is within the threshold;
returns the bracketed `Large` placeholder naming the runtime type (falling
back to `Object`) and the exact serialized length when over the threshold; and
returns the bracketed `Unstringifiable Object` placeholder when serialization
fails. -/
theorem sanitizeForLogging_spec (value : JsVal) (threshold : Int) :
    (∀ enabled, value.isObjectType = false → sanitizeForLogging value enabled threshold = value)
    ∧ sanitizeForLogging value false threshold = value
    ∧ (∀ ctor j, value = .obj ctor (some j) → (j.length : Int) ≤ threshold →
        sanitizeForLogging value true threshold = value)
    ∧ (∀ s j, value = .obj (some s) (some j) → s ≠ "" → (j.length : Int) > threshold →
        sanitizeForLogging value true threshold =
          .str ("[Large " ++ s ++ ": " ++ toString j.length ++ " chars]"))
    ∧ (∀ ctor j, value = .obj ctor (some j) → (ctor = none ∨ ctor = some "") →
        (j.length : Int) > threshold →
        sanitizeForLogging value true threshold =
          .str ("[Large Object: " ++ toString j.length ++ " chars]"))
    ∧ (∀ ctor, value = .obj ctor none →
        sanitizeForLogging value true threshold = .str "[Unstringifiable Object]") := by
  refine ⟨?_, ?_, ?_, ?_, ?_, ?_⟩
  · intro enabled hobj
    cases value <;> simp_all [JsVal.isObjectType] <;> cases enabled <;>
      simp [sanitizeForLogging]
  · cases value <;> simp [sanitizeForLogging]
  · rintro ctor j rfl hle
    simp [sanitizeForLogging, if_pos hle]
  · rintro s j rfl hs hgt
    simp only [sanitizeForLogging, if_neg (not_le.mpr hgt), if_neg hs]
  · rintro ctor j rfl hctor hgt
    rcases hctor with rfl | rfl <;> simp [sanitizeForLogging, if_neg (not_le.mpr hgt)]
  · rintro ctor rfl
    simp [sanitizeForLogging]

/-- Witness for C8's theorem at concrete inputs: an oversize object with a
named constructor yields the bracketed typed placeholder. -/
theorem sanitizeForLogging_spec_check :
    sanitizeForLogging (.obj (some "Foo") (some "abc")) true 2 = .str "[Large Foo: 3 chars]" :=
  (sanitizeForLogging_spec (.obj (some "Foo") (some "abc")) 2).2.2.2.1 "Foo" "abc" rfl
    (by decide) (by decide)

/-! ### Claim C5 (configuration validation rejects before any effect) -/

/-- Claim C5: a policy with negative `retries`, a present negative `delay`, a
present non-positive `timeout`, or a present negative `sanitizationThreshold`
makes `retry` fail with a `RetryConfigurationError` before any side effect:
zero operation invocations, zero `now()` reads (so no `startTime` and no
report), and no `onComplete` invocation. -/
theorem retry_invalid_options_rejected (W : World) (opts : RetryOptions)
    (hbad : opts.retries < 0 ∨ (∃ d, opts.delayOpt = some d ∧ d < 0) ∨
      (∃ t0, opts.timeoutOpt = some t0 ∧ t0 ≤ 0) ∨
      (∃ s, opts.sanitizationThresholdOpt = some s ∧ s < 0)) :
    ∃ msg, validateOptions opts = some msg ∧
      retryModel W opts = (.error (.configurationErr msg), EngineState.init) ∧
      (retryModel W opts).2.opCalls = 0 ∧ (retryModel W opts).2.nowCalls = 0 ∧
      (retryModel W opts).2.completed = [] := by
  rcases hv : validateOptions opts with _ | msg
  · exfalso
    rcases (validateOptions_eq_none opts).mp hv with ⟨h1, h2, h3, h4⟩
    rcases hbad with h | ⟨d, hd, hdneg⟩ | ⟨t0, ht, htle⟩ | ⟨s, hs, hsneg⟩
    · omega
    · exact absurd (h2 d (by simp [hd])) (by omega)
    · exact absurd (h3 t0 (by simp [ht])) (by omega)
    · exact absurd (h4 s (by simp [hs])) (by omega)
  · refine ⟨msg, rfl, ?_, ?_, ?_, ?_⟩ <;> simp [retryModel, hv, EngineState.init]

/-- Witness for C5's theorem: a policy with `retries = -1` is rejected with
zero side effects. -/
theorem retry_invalid_options_rejected_check :
    ∃ msg,
      validateOptions
          { retries := -1, delayOpt := none, exponentialBackoff := false,
            retryOnErrorOpt := none, retryOnResultOpt := none, timeoutOpt := none,
            hasOnComplete := true, sanitizeRetryReasonsOpt := none,
            sanitizationThresholdOpt := none } = some msg ∧
      retryModel
          { clock := fun _ => 0, op := fun _ => .ok .undef, logLevel := .info,
            handler := fun _ => .ok () }
          { retries := -1, delayOpt := none, exponentialBackoff := false,
            retryOnErrorOpt := none, retryOnResultOpt := none, timeoutOpt := none,
            hasOnComplete := true, sanitizeRetryReasonsOpt := none,
            sanitizationThresholdOpt := none } =
        (.error (.configurationErr msg), EngineState.init) ∧
      (retryModel
          { clock := fun _ => 0, op := fun _ => .ok .undef, logLevel := .info,
            handler := fun _ => .ok () }
          { retries := -1, delayOpt := none, exponentialBackoff := false,
            retryOnErrorOpt := none, retryOnResultOpt := none, timeoutOpt := none,
            hasOnComplete := true, sanitizeRetryReasonsOpt := none,
            sanitizationThresholdOpt := none }).2.opCalls = 0 ∧
      (retryModel
          { clock := fun _ => 0, op := fun _ => .ok .undef, logLevel := .info,
            handler := fun _ => .ok () }
          { retries := -1, delayOpt := none, exponentialBackoff := false,
            retryOnErrorOpt := none, retryOnResultOpt := none, timeoutOpt := none,
            hasOnComplete := true, sanitizeRetryReasonsOpt := none,
            sanitizationThresholdOpt := none }).2.nowCalls = 0 ∧
      (retryModel
          { clock := fun _ => 0, op := fun _ => .ok .undef, logLevel := .info,
            handler := fun _ => .ok () }
          { retries := -1, delayOpt := none, exponentialBackoff := false,
            retryOnErrorOpt := none, retryOnResultOpt := none, timeoutOpt := none,
            hasOnComplete := true, sanitizeRetryReasonsOpt := none,
            sanitizationThresholdOpt := none }).2.completed = [] :=
  retry_invalid_options_rejected _ _ (Or.inl (by decide))

/-! ### Claim C9 (logger failures never affect the run) -/

/-- Claim C9: the outcome, the reports passed to `onComplete`, and every other
observable of a `retry` call are identical for any two logging sinks — in
particular for a sink whose leveled methods throw and for one that does not —
because every sink call is routed through `tryLog`, which discards the sink
call's outcome. -/
theorem retry_logger_failures_ignored (c : Nat → Int) (o : Nat → OpResult) (lvl : LogLevel)
    (h1 h2 : Nat → Except JsError Unit) (opts : RetryOptions) :
    retryModel ⟨c, o, lvl, h1⟩ opts = retryModel ⟨c, o, lvl, h2⟩ opts := by
  have hstep : ∀ bd dl thr rl k,
      attemptStep ⟨c, o, lvl, h1⟩ opts bd dl thr rl k =
        attemptStep ⟨c, o, lvl, h2⟩ opts bd dl thr rl k :=
    fun _ _ _ _ _ => rfl
  have hatt : ∀ bd dl thr rl,
      attempt ⟨c, o, lvl, h1⟩ opts bd dl thr rl = attempt ⟨c, o, lvl, h2⟩ opts bd dl thr rl := by
    intro bd dl thr rl
    induction rl with
    | zero => exact hstep bd dl thr 0 none
    | succ m ih =>
      show attemptStep _ opts bd dl thr (m + 1) (some _) =
        attemptStep _ opts bd dl thr (m + 1) (some _)
      rw [ih]
      exact hstep bd dl thr (m + 1) _
  rcases hv : validateOptions opts with _ | msg
  · simp only [retryModel, hv]
    exact congrFun (congrFun (hatt _ _ _ _) _) _
  · simp [retryModel, hv]

/-! ### Claim C4 (onComplete exactly once) — refuted by the code

The `try` block of `attempt` (lines 384-410) covers
`return await this.handleRetryableResult(...)`.  When the nested recursion
started by the result-retry path ultimately raises, the raise is caught by the
enclosing frame's `catch` and fed to `handleError`, which retries again —
after the nested run has already finalized a report and invoked `onComplete`.
The run below therefore invokes `onComplete` twice and the operation three
times although `retries = 1`. -/

/-- A small retryable "pending" result value. -/
def pendingResult : JsVal := .obj (some "Object") (some "p")

/-- The `Error` rejected by the k-th operation invocation of the C4 run. -/
def c4Error (k : Nat) : Thrown :=
  { val := .obj (some "Error") (some "\x7b\x7d")
    errData := some (.mk "Error" ("E" ++ toString k) none)
    strRepr := "Error: E" ++ toString k }

/-- World for the C4 run: the first operation invocation resolves to the
retryable `pendingResult`, every later one rejects with an `Error`. -/
def c4World : World :=
  { clock := fun _ => 0
    op := fun k => if k = 0 then .ok pendingResult else .thrown (c4Error k)
    logLevel := .info
    handler := fun _ => .ok () }

/-- Policy for the C4 run: one retry, `retryOnResult` flags `pendingResult`,
an `onComplete` hook is installed, sanitization disabled. -/
def c4Options : RetryOptions :=
  { retries := 1, delayOpt := some 0, exponentialBackoff := false,
    retryOnErrorOpt := none, retryOnResultOpt := some (fun v => v == pendingResult),
    timeoutOpt := none, hasOnComplete := true,
    sanitizeRetryReasonsOpt := some false, sanitizationThresholdOpt := none }

/-- Claim C4 is refuted by the code: for this valid policy with an `onComplete`
hook the engine invokes `onComplete` twice (two finalized reports are
delivered) and the operation three times although `retries = 1`.  Trace:
attempt 1 returns the retryable result and recurses with `retriesLeft = 0`;
attempt 2 throws, the inner frame finalizes, fires `onComplete` and raises
`RetryAttemptsExceededError`; that raise is caught by the outer frame's `try`
(which covers `return await this.handleRetryableResult(...)`), treated as a
fresh operation error, retried; attempt 3 throws, and a second report is
finalized and delivered to `onComplete`. -/
theorem retry_onComplete_double_fire :
    (retryModel c4World c4Options).2.completed.length = 2 ∧
      (retryModel c4World c4Options).2.opCalls = 3 :=
  ⟨rfl, rfl⟩

/-! ### Claim C1 (always-failing operation) -/

/-- A thrown non-`Error` JavaScript value (`throw "boom"`). -/
def boomThrown : Thrown := { val := .str "boom", errData := none, strRepr := "boom" }

/-- World for the C1 counterexample: every operation invocation rejects with
the non-`Error` value `"boom"`. -/
def c1World : World :=
  { clock := fun _ => 0, op := fun _ => .thrown boomThrown, logLevel := .info,
    handler := fun _ => .ok () }

/-- Valid policy with `retries = 0`, no timeout, `retryOnError` absent. -/
def c1Options : RetryOptions :=
  { retries := 0, delayOpt := some 0, exponentialBackoff := false,
    retryOnErrorOpt := none, retryOnResultOpt := none, timeoutOpt := none,
    hasOnComplete := true, sanitizeRetryReasonsOpt := none, sanitizationThresholdOpt := none }

def raisedIsAttemptsExceeded : Raised → Bool
  | .attemptsExceeded _ _ => true
  | _ => false

def outcomeIsAttemptsExceeded : Except Raised JsVal → Bool
  | .error r => raisedIsAttemptsExceeded r
  | .ok _ => false

/-- Claim C1, counterexample: a valid policy (retries `0`, no timeout,
`retryOnError` absent) and an operation failing on every invocation by
throwing the non-`Error` value `"boom"` rejects with that value verbatim, not
with `RetryAttemptsExceededError` — the wrap on line 565 is guarded by
`error instanceof Error`.  (The report-shaped parts of the claim do hold on
this input.) -/
theorem retry_allFailing_nonError_not_wrapped :
    (retryModel c1World c1Options).1 = .error (.original boomThrown) ∧
      outcomeIsAttemptsExceeded (retryModel c1World c1Options).1 = false ∧
      (retryModel c1World c1Options).2.opCalls = 1 :=
  ⟨rfl, rfl, rfl⟩

/-! ### Unfolding lemmas for the attempt engine -/

/-- Number of sink invocations produced by one `logger.debug` call (1 when the
`debug` level passes the `Logger`'s filter, otherwise 0). -/
def dbgStep (W : World) : Nat := if isLoggable W.logLevel .debug then 1 else 0

lemma loggerDebug_eq (W : World) (st : EngineState) :
    loggerDebug W st = { st with logCalls := st.logCalls + dbgStep W } := by
  unfold loggerDebug dbgStep
  split <;> simp

lemma attempt_zero (W : World) (opts : RetryOptions) (bd : Int) (dl : Option Int) (thr : Int) :
    attempt W opts bd dl thr 0 = attemptStep W opts bd dl thr 0 none := rfl

lemma attempt_succ (W : World) (opts : RetryOptions) (bd : Int) (dl : Option Int) (thr : Int)
    (m : Nat) :
    attempt W opts bd dl thr (m + 1) =
      attemptStep W opts bd dl thr (m + 1) (some (attempt W opts bd dl thr m)) := rfl

lemma attemptStep_timedOut (W : World) (opts : RetryOptions) (bd : Int) (thr : Int)
    (rl : Nat) (k : Option (RetryReport → EngineState → Res)) (b : RetryReport)
    (st : EngineState) (d : Int) (hd : d ≠ 0) (hnow : W.clock st.nowCalls > d) :
    attemptStep W opts bd (some d) thr rl k b st =
      handleTimeout W opts (withAttempt b) { st with nowCalls := st.nowCalls + 1 } := by
  unfold attemptStep isTimedOut readNow
  simp [hd, hnow]

lemma handleTimeout_spec (W : World) (opts : RetryOptions) (b : RetryReport) (st : EngineState)
    (hT : b.startTime ≤ W.clock st.nowCalls) (hA : 0 ≤ b.attempts) :
    handleTimeout W opts b st =
      (.error (.timeoutErr b.errors.getLast?),
       fireOnComplete opts (withTimeout b (W.clock st.nowCalls))
         { st with nowCalls := st.nowCalls + 1, logCalls := st.logCalls + dbgStep W }) := by
  have h1 : ¬(W.clock st.nowCalls - b.startTime < 0) := by omega
  have h2 : ¬(b.attempts < 0) := by omega
  simp [handleTimeout, loggerDebug_eq, readNow, buildReport, withTimeout, h1, h2]

/-! ### Claim C2 (timeout deadline and the pre-invocation check) -/

/-- World for the C2 counterexample: a monotone mock clock that advances by one
unit per `now()` call. -/
def c2World : World :=
  { clock := fun k => (k : Int), op := fun _ => .ok .undef, logLevel := .info,
    handler := fun _ => .ok () }

/-- Valid policy with `timeout = 10`. -/
def c2Options : RetryOptions :=
  { retries := 0, delayOpt := some 0, exponentialBackoff := false,
    retryOnErrorOpt := none, retryOnResultOpt := none, timeoutOpt := some 10,
    hasOnComplete := true, sanitizeRetryReasonsOpt := none, sanitizationThresholdOpt := none }

/-- Claim C2, counterexample: the claim states the deadline is the absolute
timestamp `startTime + timeout`, but `retry` computes it from a separate
`now()` read (line 328) taken before `startTime` is read (line 331).  With a
clock that advances between the two reads, the computed deadline is
`10 = clock 0 + 10` while `startTime + timeout` is `1 + 10 = 11`. -/
theorem retry_deadline_not_startTime_based :
    (retrySetup c2World c2Options).deadline = some 10 ∧
      (retrySetup c2World c2Options).startTime = 1 ∧
      some (10 : Int) ≠ some ((1 : Int) + 10) :=
  ⟨rfl, rfl, by decide⟩

/-- Claim C2 (amended: the deadline is `n₀ + timeout` where `n₀` is the `now()`
sample taken immediately before `startTime` is read — equal to
`startTime + timeout` whenever the clock does not advance between the two
consecutive reads; the rest of the claim is unchanged): with a timeout
configured, the deadline is fixed as stated (first conjunct), and at the start
of every iteration, after `withAttempt` but before invoking the operation, the
engine checks `now() > deadline`; when it is exceeded it finalizes the report
with `timedOut = true`, attaches the most recent recorded error as cause if any
errors exist, delivers the finalized report to `onComplete`, and fails with
`RetryTimeoutError` — with zero additional operation invocations on that
iteration (the final state differs from `st` only in `now()` reads, the
`logger.debug` call, and the `onComplete` delivery). -/
theorem retry_timeout_behavior :
    (∀ (W : World) (opts : RetryOptions) (T : Int),
        opts.timeoutOpt = some T → T ≠ 0 →
        (retrySetup W opts).deadline = some (W.clock 0 + T) ∧
          (retrySetup W opts).startTime = W.clock 1 ∧
          (W.clock 0 = W.clock 1 →
            (retrySetup W opts).deadline = some ((retrySetup W opts).startTime + T)))
    ∧ (∀ (W : World) (opts : RetryOptions) (bd thr d : Int) (rl : Nat) (b : RetryReport)
        (st : EngineState),
        d ≠ 0 → W.clock st.nowCalls > d →
        b.startTime ≤ W.clock (st.nowCalls + 1) → 0 ≤ b.attempts →
        attempt W opts bd (some d) thr rl b st =
            (.error (.timeoutErr b.errors.getLast?),
             fireOnComplete opts (withTimeout (withAttempt b) (W.clock (st.nowCalls + 1)))
               { st with nowCalls := st.nowCalls + 2, logCalls := st.logCalls + dbgStep W }) ∧
          (withTimeout (withAttempt b) (W.clock (st.nowCalls + 1))).timedOut = some true ∧
          (withTimeout (withAttempt b) (W.clock (st.nowCalls + 1))).attempts = b.attempts + 1 ∧
          (withTimeout (withAttempt b) (W.clock (st.nowCalls + 1))).errors = b.errors) := by
  constructor
  · intro W opts T hT hT0
    refine ⟨?_, ?_, ?_⟩ <;> simp [retrySetup, hT, hT0, readNow, EngineState.init]
  · intro W opts bd thr d rl b st hd hnow hstart hatt
    have hb1T : (withAttempt b).startTime ≤ W.clock (st.nowCalls + 1) := hstart
    have hb1A : 0 ≤ (withAttempt b).attempts := by
      simp only [withAttempt]
      omega
    have hstep : ∀ k, attemptStep W opts bd (some d) thr rl k b st =
        handleTimeout W opts (withAttempt b) { st with nowCalls := st.nowCalls + 1 } :=
      fun k => attemptStep_timedOut W opts bd thr rl k b st d hd hnow
    have hht := handleTimeout_spec W opts (withAttempt b)
      { st with nowCalls := st.nowCalls + 1 } hb1T hb1A
    have hmain : attempt W opts bd (some d) thr rl b st =
        (.error (.timeoutErr b.errors.getLast?),
         fireOnComplete opts (withTimeout (withAttempt b) (W.clock (st.nowCalls + 1)))
           { st with nowCalls := st.nowCalls + 2, logCalls := st.logCalls + dbgStep W }) := by
      cases rl with
      | zero =>
        rw [attempt_zero, hstep none, hht]
        simp [withAttempt]
      | succ m =>
        rw [attempt_succ, hstep _, hht]
        simp [withAttempt]
    exact ⟨hmain, rfl, rfl, rfl⟩

/-- Witness for C2's theorem: both conjuncts applied at a concrete ticking
clock and a timed-out first iteration. -/
theorem retry_timeout_behavior_check :
    ((retrySetup c2World c2Options).deadline = some (c2World.clock 0 + 10) ∧
      (retrySetup c2World c2Options).startTime = c2World.clock 1 ∧
      (c2World.clock 0 = c2World.clock 1 →
        (retrySetup c2World c2Options).deadline =
          some ((retrySetup c2World c2Options).startTime + 10)))
    ∧ (attempt c2World c2Options 0 (some 1) 500 0 (initialReport 2)
          { nowCalls := 2, opCalls := 0, logCalls := 0, waits := [], completed := [] } =
            (.error (.timeoutErr (initialReport 2).errors.getLast?),
             fireOnComplete c2Options
               (withTimeout (withAttempt (initialReport 2)) (c2World.clock 3))
               { nowCalls := 4, opCalls := 0, logCalls := 0 + dbgStep c2World, waits := [],
                 completed := [] }) ∧
          (withTimeout (withAttempt (initialReport 2)) (c2World.clock 3)).timedOut = some true ∧
          (withTimeout (withAttempt (initialReport 2)) (c2World.clock 3)).attempts =
            (initialReport 2).attempts + 1 ∧
          (withTimeout (withAttempt (initialReport 2)) (c2World.clock 3)).errors =
            (initialReport 2).errors) :=
  ⟨retry_timeout_behavior.1 c2World c2Options 10 rfl (by decide),
   retry_timeout_behavior.2 c2World c2Options 0 500 1 0 (initialReport 2)
     { nowCalls := 2, opCalls := 0, logCalls := 0, waits := [], completed := [] }
     (by decide) (by decide) (by decide) (by decide)⟩

/-! ### A run on an operation that fails on every invocation

`allFailErrors`, `allFailDelays`, `allFailReasons` and `allFailWaits` describe
the lists accumulated by `m` consecutive error-retries followed by a final
failing attempt; `exhaustRaise` is what the final `handleNonRetryableError`
raises when retries were wanted but exhausted. -/

def allFailErrors (t : Nat → Thrown) : Nat → Nat → List JsError
  | _, 0 => []
  | start, m + 1 => thrownToError (t start) :: allFailErrors t (start + 1) m

def allFailDelays (opts : RetryOptions) (bd : Int) : Nat → List Int
  | 0 => []
  | m + 1 => calculateDelay opts (m + 1) bd :: allFailDelays opts bd m

def allFailReasons (opts : RetryOptions) (thr : Int) (t : Nat → Thrown) :
    Nat → Nat → List RetryReason
  | _, 0 => []
  | start, m + 1 =>
    ⟨.error, sanitizeForLogging (t start).val (sanitizeEnabled opts) thr⟩ ::
      allFailReasons opts thr t (start + 1) m

def allFailWaits (opts : RetryOptions) (bd : Int) : Nat → List Int
  | 0 => []
  | m + 1 =>
    (if calculateDelay opts (m + 1) bd ≠ 0 then [calculateDelay opts (m + 1) bd] else []) ++
      allFailWaits opts bd m

/-- Effect of a sequence of `withRetryReason` appends on the optional
`retryReasons` field: an empty sequence leaves the field untouched (possibly
absent); a nonempty one makes it present. -/
def reasonsConcat (o : Option (List RetryReason)) : List RetryReason → Option (List RetryReason)
  | [] => o
  | l => some (o.getD [] ++ l)

lemma reasonsConcat_some (x : List RetryReason) (l : List RetryReason) :
    reasonsConcat (some x) l = some (x ++ l) := by
  cases l <;> simp [reasonsConcat]

lemma reasonsConcat_cons (o : Option (List RetryReason)) (r : RetryReason)
    (l : List RetryReason) : reasonsConcat o (r :: l) = some (o.getD [] ++ r :: l) := rfl

/-- What `handleNonRetryableError` raises at `retriesLeft = 0` with
`shouldRetry = true`: the `RetryAttemptsExceededError` wrap for an `Error`
instance, the verbatim thrown value otherwise. -/
def exhaustRaise (opts : RetryOptions) (t : Thrown) : Raised :=
  match t.errData with
  | some e =>
    .attemptsExceeded
      ("Maximum retry attempts (" ++ toString opts.retries ++ ") exceeded: " ++ e.message) e
  | none => .original t

lemma attemptStep_error (W : World) (opts : RetryOptions) (bd : Int) (thr : Int) (rl : Nat)
    (k : Option (RetryReport → EngineState → Res)) (b : RetryReport) (st : EngineState)
    (t : Thrown) (hop : W.op st.opCalls = .thrown t) :
    attemptStep W opts bd none thr rl k b st =
      handleError W opts t rl bd thr k (withAttempt b)
        { st with logCalls := st.logCalls + dbgStep W, opCalls := st.opCalls + 1 } := by
  simp [attemptStep, isTimedOut, loggerDebug_eq, callOp, hop, tryCatch]

lemma handleError_retry (W : World) (opts : RetryOptions) (t : Thrown) (rl : Nat)
    (bd thr : Int) (k : RetryReport → EngineState → Res) (b : RetryReport) (st : EngineState)
    (hsr : shouldRetryEval opts t = true) :
    handleError W opts t rl bd thr (some k) b st =
      retryAfterError W opts t rl bd thr (withError b t)
        { st with logCalls := st.logCalls + dbgStep W } k := by
  simp [handleError, loggerDebug_eq, hsr]

lemma handleError_none (W : World) (opts : RetryOptions) (t : Thrown) (rl : Nat)
    (bd thr : Int) (b : RetryReport) (st : EngineState) :
    handleError W opts t rl bd thr none b st =
      handleNonRetryableError W opts t rl (shouldRetryEval opts t) (withError b t)
        { st with logCalls := st.logCalls + dbgStep W } := by
  simp [handleError, loggerDebug_eq]

lemma handleError_some_noRetry (W : World) (opts : RetryOptions) (t : Thrown) (rl : Nat)
    (bd thr : Int) (k : RetryReport → EngineState → Res) (b : RetryReport) (st : EngineState)
    (hsr : shouldRetryEval opts t = false) :
    handleError W opts t rl bd thr (some k) b st =
      handleNonRetryableError W opts t rl false (withError b t)
        { st with logCalls := st.logCalls + dbgStep W } := by
  simp [handleError, loggerDebug_eq, hsr]

lemma retryAfterError_eq (W : World) (opts : RetryOptions) (t : Thrown) (rl : Nat)
    (bd thr : Int) (b : RetryReport) (st : EngineState) (k : RetryReport → EngineState → Res) :
    retryAfterError W opts t rl bd thr b st k =
      k (withDelay (withRetryReason b .error t.val (sanitizeEnabled opts) thr)
          (calculateDelay opts rl bd))
        { st with
          logCalls := st.logCalls + dbgStep W
          waits := st.waits ++
            (if calculateDelay opts rl bd ≠ 0 then [calculateDelay opts rl bd] else []) } := by
  unfold retryAfterError
  rw [loggerDebug_eq]
  split <;> simp_all

lemma handleNonRetryableError_spec (W : World) (opts : RetryOptions) (t : Thrown) (rl : Nat)
    (shouldRetry : Bool) (b : RetryReport) (st : EngineState)
    (hT : b.startTime ≤ W.clock st.nowCalls) (hA : 0 ≤ b.attempts) :
    handleNonRetryableError W opts t rl shouldRetry b st =
      ((match t.errData, rl == 0 && shouldRetry with
        | some e, true =>
          .error (.attemptsExceeded
            ("Maximum retry attempts (" ++ toString opts.retries ++ ") exceeded: " ++ e.message)
            e)
        | _, _ => .error (.original t)),
       fireOnComplete opts (withFailure b (W.clock st.nowCalls))
         { st with nowCalls := st.nowCalls + 1, logCalls := st.logCalls + dbgStep W }) := by
  have h1 : ¬(W.clock st.nowCalls - b.startTime < 0) := by omega
  have h2 : ¬(b.attempts < 0) := by omega
  rcases he : t.errData with _ | e <;> cases hb : (rl == 0 && shouldRetry) <;>
    simp [handleNonRetryableError, loggerDebug_eq, readNow, buildReport, withFailure, h1, h2,
      he, hb]

lemma attempt_allFailing_step (W : World) (opts : RetryOptions) (bd thr : Int) (m : Nat)
    (b : RetryReport) (st : EngineState) (tt : Thrown)
    (hop : W.op st.opCalls = .thrown tt) (hnoe : opts.retryOnErrorOpt = none) :
    attempt W opts bd none thr (m + 1) b st =
      attempt W opts bd none thr m
        (withDelay
          (withRetryReason (withError (withAttempt b) tt) .error tt.val (sanitizeEnabled opts)
            thr)
          (calculateDelay opts (m + 1) bd))
        { st with
          opCalls := st.opCalls + 1
          logCalls := st.logCalls + 3 * dbgStep W
          waits := st.waits ++
            (if calculateDelay opts (m + 1) bd ≠ 0 then [calculateDelay opts (m + 1) bd]
             else []) } := by
  have hsr : shouldRetryEval opts tt = true := by simp [shouldRetryEval, hnoe]
  rw [attempt_succ, attemptStep_error W opts bd thr (m + 1) _ b st tt hop,
    handleError_retry W opts tt (m + 1) bd thr _ _ _ hsr, retryAfterError_eq]
  obtain ⟨nc, oc, lc, w, cp⟩ := st
  congr 1
  simp
  omega

lemma attempt_allFailing_zero (W : World) (opts : RetryOptions) (bd thr : Int)
    (b : RetryReport) (st : EngineState) (tt : Thrown)
    (hop : W.op st.opCalls = .thrown tt) (hnoe : opts.retryOnErrorOpt = none)
    (hT : b.startTime ≤ W.clock st.nowCalls) (hA : 0 ≤ b.attempts) :
    attempt W opts bd none thr 0 b st =
      (.error (exhaustRaise opts tt),
       fireOnComplete opts (withFailure (withError (withAttempt b) tt) (W.clock st.nowCalls))
         { st with
           nowCalls := st.nowCalls + 1
           opCalls := st.opCalls + 1
           logCalls := st.logCalls + 3 * dbgStep W }) := by
  have hsr : shouldRetryEval opts tt = true := by simp [shouldRetryEval, hnoe]
  rw [attempt_zero, attemptStep_error W opts bd thr 0 none b st tt hop, handleError_none]
  rw [handleNonRetryableError_spec W opts tt 0 (shouldRetryEval opts tt)
    (withError (withAttempt b) tt) _ (by simpa [withError, withAttempt] using hT)
    (by simp [withError, withAttempt]; omega)]
  obtain ⟨nc, oc, lc, w, cp⟩ := st
  rcases he : tt.errData with _ | e <;>
    simp [exhaustRaise, hsr, he, withError, withAttempt,
      show lc + dbgStep W + dbgStep W + dbgStep W = lc + 3 * dbgStep W from by omega]

/-- Master description of a run of `attempt` with no deadline, `retryOnError`
absent, and an operation that rejects on every invocation: `m + 1` invocations
happen, each rejection is recorded, every retry decision appends one reason and
one delay, one final `now()` read stamps the failure report, the report is
delivered to `onComplete` when configured, and the run raises `exhaustRaise`
for the last rejection. -/
lemma attempt_allFailing (W : World) (opts : RetryOptions) (bd thr : Int) (t : Nat → Thrown)
    (hop : ∀ k, W.op k = .thrown (t k)) (hnoe : opts.retryOnErrorOpt = none) :
    ∀ (m : Nat) (b : RetryReport) (st : EngineState),
      0 ≤ b.attempts → b.startTime ≤ W.clock st.nowCalls →
      attempt W opts bd none thr m b st =
        (.error (exhaustRaise opts (t (st.opCalls + m))),
         { nowCalls := st.nowCalls + 1
           opCalls := st.opCalls + (m + 1)
           logCalls := st.logCalls + 3 * (m + 1) * dbgStep W
           waits := st.waits ++ allFailWaits opts bd m
           completed := st.completed ++
             (if opts.hasOnComplete then
               [{ startTime := b.startTime
                  totalTime := W.clock st.nowCalls - b.startTime
                  attempts := b.attempts + ((m : Int) + 1)
                  errors := b.errors ++ allFailErrors t st.opCalls (m + 1)
                  delays := b.delays ++ allFailDelays opts bd m
                  retryingOperationSucceeded := false
                  timedOut := b.timedOut
                  retryReasons := reasonsConcat b.retryReasons
                    (allFailReasons opts thr t st.opCalls m) }]
             else []) }) := by
  intro m
  induction m with
  | zero =>
    intro b st hA hT
    rw [attempt_allFailing_zero W opts bd thr b st (t st.opCalls) (hop st.opCalls) hnoe hT hA]
    obtain ⟨nc, oc, lc, w, cp⟩ := st
    by_cases hc : opts.hasOnComplete <;>
      simp [fireOnComplete, withFailure, withError, withAttempt, allFailErrors, allFailDelays,
        allFailReasons, allFailWaits, reasonsConcat, hc]
  | succ m ih =>
    intro b st hA hT
    obtain ⟨nc, oc, lc, w, cp⟩ := st
    rw [attempt_allFailing_step W opts bd thr m b _ (t oc) (hop oc) hnoe]
    rw [ih _ _ (by simp [withDelay, withRetryReason, withError, withAttempt]; omega)
      (by simpa [withDelay, withRetryReason, withError, withAttempt] using hT)]
    have hidx : oc + 1 + m = oc + (m + 1) := by omega
    have hlog : lc + 3 * dbgStep W + 3 * (m + 1) * dbgStep W =
        lc + 3 * (m + 1 + 1) * dbgStep W := by ring
    by_cases hc : opts.hasOnComplete <;>
      simp [withDelay, withRetryReason, withError, withAttempt, allFailErrors, allFailDelays,
        allFailReasons, allFailWaits, reasonsConcat_some, reasonsConcat_cons, hidx, hlog,
        hc] <;>
      first
        | rfl
        | omega

lemma retryModel_noTimeout (W : World) (opts : RetryOptions)
    (hv : validateOptions opts = none) (hnt : opts.timeoutOpt = none) :
    retryModel W opts =
      attempt W opts (max 0 (opts.delayOpt.getD 0)) none
        (opts.sanitizationThresholdOpt.getD 500) (max 0 opts.retries).toNat
        (initialReport (W.clock 0))
        { nowCalls := 1, opCalls := 0, logCalls := 0, waits := [], completed := [] } := by
  simp [retryModel, hv, retrySetup, hnt, readNow, EngineState.init]

lemma allFailErrors_length (t : Nat → Thrown) : ∀ (m s : Nat), (allFailErrors t s m).length = m
  | 0, _ => rfl
  | m + 1, s => by simp [allFailErrors, allFailErrors_length t m (s + 1)]

/-- A thrown `new Error("X")` (a plain `Error` has no own enumerable
properties, so it serializes to an empty JSON object). -/
def xThrown : Thrown :=
  { val := .obj (some "Error") (some "\x7b\x7d"), errData := some (.mk "Error" "X" none),
    strRepr := "Error: X" }

/-- Claim C1 (amended: the always-failing operation throws `Error` instances;
a thrown non-`Error` value is re-raised verbatim instead of being wrapped —
see the counterexample): with a valid policy, `retryOnError` absent and no
timeout, an operation rejecting with `Error`s on every invocation is invoked
exactly `maxRetries + 1` times, the call rejects with
`RetryAttemptsExceededError` whose message names the configured `maxRetries`
and whose cause is the last thrown error, and the single finalized report
shows `attempts = maxRetries + 1`, `succeeded = false`, and
`errors.length = maxRetries + 1`. -/
theorem retry_allFailing_attemptsExceeded (W : World) (opts : RetryOptions) (n : Nat)
    (t : Nat → Thrown) (e : Nat → JsError)
    (hv : validateOptions opts = none) (hr : opts.retries = (n : Int))
    (hnoe : opts.retryOnErrorOpt = none) (hnt : opts.timeoutOpt = none)
    (hoc : opts.hasOnComplete = true)
    (hop : ∀ k, W.op k = .thrown (t k)) (herr : ∀ k, (t k).errData = some (e k))
    (hclk : W.clock 0 ≤ W.clock 1) :
    (retryModel W opts).1 =
        .error (.attemptsExceeded
          ("Maximum retry attempts (" ++ toString opts.retries ++ ") exceeded: "
            ++ (e n).message) (e n)) ∧
      (retryModel W opts).2.opCalls = n + 1 ∧
      (retryModel W opts).2.completed.map
          (fun R => (R.attempts, R.retryingOperationSucceeded, R.errors.length)) =
        [(((n : Int) + 1), false, n + 1)] := by
  rw [retryModel_noTimeout W opts hv hnt]
  have hclamp : (max 0 opts.retries).toNat = n := by rw [hr]; omega
  rw [hclamp]
  rw [attempt_allFailing W opts _ _ t hop hnoe n (initialReport (W.clock 0)) _
    (by simp [initialReport]) (by simpa [initialReport] using hclk)]
  refine ⟨?_, ?_, ?_⟩
  · simp [exhaustRaise, herr n]
  · simp
  · simp [hoc, initialReport, allFailErrors_length]

/-- Witness world for C1: a constant clock and an operation that always throws
`Error("X")`. -/
def xWorld : World :=
  { clock := fun _ => 0, op := fun _ => .thrown xThrown, logLevel := .info,
    handler := fun _ => .ok () }

/-- Witness policy for C1: `retries = 2`, `delay = 0`, no timeout,
`retryOnError` absent, `onComplete` installed. -/
def xOptions : RetryOptions :=
  { retries := 2, delayOpt := some 0, exponentialBackoff := false,
    retryOnErrorOpt := none, retryOnResultOpt := none, timeoutOpt := none,
    hasOnComplete := true, sanitizeRetryReasonsOpt := none, sanitizationThresholdOpt := none }

/-- Witness for C1's theorem: `retries = 2`, `delay = 0` and `Error("X")` on
every invocation gives exactly 3 calls, a `RetryAttemptsExceededError` naming
`2` with `cause.message = "X"`, and a report with `attempts = 3`,
`succeeded = false`, `errors.length = 3`. -/
theorem retry_allFailing_attemptsExceeded_check :
    (retryModel xWorld xOptions).1 =
        .error (.attemptsExceeded "Maximum retry attempts (2) exceeded: X"
          (.mk "Error" "X" none)) ∧
      (retryModel xWorld xOptions).2.opCalls = 3 ∧
      (retryModel xWorld xOptions).2.completed.map
          (fun R => (R.attempts, R.retryingOperationSucceeded, R.errors.length)) =
        [((3 : Int), false, 3)] :=
  retry_allFailing_attemptsExceeded xWorld xOptions 2 (fun _ => xThrown)
    (fun _ => .mk "Error" "X" none) rfl rfl rfl rfl rfl (fun _ => rfl) (fun _ => rfl)
    (by decide)

/-! ### Claim C3 (recorded delay sequence) -/

lemma allFailDelays_formula (opts : RetryOptions) (d : Int) (n : Nat)
    (hr : opts.retries = (n : Int)) :
    ∀ j, j ≤ n → allFailDelays opts d j =
      if opts.exponentialBackoff then
        (List.range j).map (fun (k : Nat) => d * ((n : Int) - j + (k : Int) + 1))
      else List.replicate j d := by
  intro j
  induction j with
  | zero => intro _; cases opts.exponentialBackoff <;> simp [allFailDelays]
  | succ j ihj =>
    intro hj
    have hj' : j ≤ n := by omega
    by_cases hb : opts.exponentialBackoff
    · simp only [allFailDelays, ihj hj', calculateDelay, hr, hb, if_true,
        List.range_succ_eq_map, List.map_cons, List.map_map]
      have hfun : ((fun (k : Nat) => d * ((n : Int) - ((j + 1 : Nat) : Int) + (k : Int) + 1)) ∘
            Nat.succ) =
          (fun (k : Nat) => d * ((n : Int) - ((j : Nat) : Int) + (k : Int) + 1)) := by
        funext k
        simp only [Function.comp]
        push_cast
        ring
      rw [hfun]
      refine congrArg₂ List.cons ?_ rfl
      push_cast
      ring
    · simp [allFailDelays, ihj hj', calculateDelay, hb, List.replicate_succ]

/-- World for the C3 counterexample: every invocation throws `Error("X")`. -/
def c3World : World :=
  { clock := fun _ => 0, op := fun _ => .thrown xThrown, logLevel := .info,
    handler := fun _ => .ok () }

/-- Valid policy with `maxRetries = 1`, `baseDelay = 5`, exponential backoff,
and a `retryOnError` predicate that rejects every error. -/
def c3Options : RetryOptions :=
  { retries := 1, delayOpt := some 5, exponentialBackoff := true,
    retryOnErrorOpt := some (fun _ => false), retryOnResultOpt := none, timeoutOpt := none,
    hasOnComplete := true, sanitizeRetryReasonsOpt := none, sanitizationThresholdOpt := none }

/-- Claim C3, counterexample: the claim quantifies over every valid policy with
`exponentialBackoff = true`, `baseDelay = d`, `maxRetries = n`, but a policy
whose `retryOnError` predicate rejects the error performs no retry at all, so
the recorded delay sequence of a continuously failing operation is `[]`, not
`[d, …, n·d]` (here `n = 1`, `d = 5`, claimed `[5]`).  A configured timeout
can likewise cut the sequence short. -/
theorem retry_delays_cut_short_by_nonretryable :
    (retryModel c3World c3Options).2.completed.map (fun R => R.delays) = [[]] ∧
      ([[]] : List (List Int)) ≠ [[(5 : Int)]] :=
  ⟨rfl, by decide⟩

/-- Claim C3 (amended: additionally require `retryOnError` absent and no
timeout, so that every retry actually happens): for a valid such policy with
`baseDelay = d` and `maxRetries = n`, the recorded delay sequence of a
continuously failing operation is exactly `[d·1, d·2, …, d·n]` when
`exponentialBackoff` is set and `[d, d, …, d]` (length `n`) otherwise. -/
theorem retry_backoff_delay_sequence (W : World) (opts : RetryOptions) (n : Nat) (d : Int)
    (t : Nat → Thrown)
    (hv : validateOptions opts = none) (hr : opts.retries = (n : Int))
    (hdopt : opts.delayOpt = some d)
    (hnoe : opts.retryOnErrorOpt = none) (hnt : opts.timeoutOpt = none)
    (hoc : opts.hasOnComplete = true)
    (hop : ∀ k, W.op k = .thrown (t k)) (hclk : W.clock 0 ≤ W.clock 1) :
    (retryModel W opts).2.completed.map (fun R => R.delays) =
      [if opts.exponentialBackoff then
        (List.range n).map (fun (k : Nat) => d * ((k : Int) + 1))
       else List.replicate n d] := by
  have hd0 : 0 ≤ d :=
    ((validateOptions_eq_none opts).mp hv).2.1 d (by simp [hdopt])
  rw [retryModel_noTimeout W opts hv hnt]
  have hclamp : (max 0 opts.retries).toNat = n := by rw [hr]; omega
  have hbase : max 0 (opts.delayOpt.getD 0) = d := by
    rw [hdopt]
    simpa using hd0
  rw [hclamp, hbase]
  rw [attempt_allFailing W opts _ _ t hop hnoe n (initialReport (W.clock 0)) _
    (by simp [initialReport]) (by simpa [initialReport] using hclk)]
  simp only [hoc, if_true, List.map_cons, List.map_nil, List.nil_append]
  rw [allFailDelays_formula opts d n hr n le_rfl]
  simp only [initialReport, List.map_cons, List.map_nil, List.nil_append, sub_self, zero_add]

/-- Witness for C3's theorem: `n = 2`, `d = 5`, exponential backoff gives the
recorded delays `[5, 10]`. -/
def c3wOptions : RetryOptions :=
  { retries := 2, delayOpt := some 5, exponentialBackoff := true,
    retryOnErrorOpt := none, retryOnResultOpt := none, timeoutOpt := none,
    hasOnComplete := true, sanitizeRetryReasonsOpt := none, sanitizationThresholdOpt := none }

theorem retry_backoff_delay_sequence_check :
    (retryModel c3World c3wOptions).2.completed.map (fun R => R.delays) =
      [if c3wOptions.exponentialBackoff then
        (List.range 2).map (fun (k : Nat) => (5 : Int) * ((k : Int) + 1))
       else List.replicate 2 (5 : Int)] :=
  retry_backoff_delay_sequence c3World c3wOptions 2 5 (fun _ => xThrown) rfl rfl rfl rfl rfl
    rfl (fun _ => rfl) (by decide)

/-! ### Claim C6 (non-retryable and non-Error raises are verbatim) -/

/-- A first-attempt error that is judged non-retryable terminates the run with
the thrown value re-raised verbatim, for any remaining retry budget. -/
lemma attempt_firstError_nonretryable (W : World) (opts : RetryOptions) (bd thr : Int)
    (rl : Nat) (b : RetryReport) (st : EngineState) (tt : Thrown)
    (hop : W.op st.opCalls = .thrown tt) (hsr : shouldRetryEval opts tt = false)
    (hT : b.startTime ≤ W.clock st.nowCalls) (hA : 0 ≤ b.attempts) :
    attempt W opts bd none thr rl b st =
      (.error (.original tt),
       fireOnComplete opts (withFailure (withError (withAttempt b) tt) (W.clock st.nowCalls))
         { st with
           nowCalls := st.nowCalls + 1
           opCalls := st.opCalls + 1
           logCalls := st.logCalls + 3 * dbgStep W }) := by
  cases rl with
  | zero =>
    rw [attempt_zero, attemptStep_error W opts bd thr 0 none b st tt hop, handleError_none]
    rw [handleNonRetryableError_spec W opts tt 0 (shouldRetryEval opts tt) _ _
      (by simpa [withError, withAttempt] using hT)
      (by simp [withError, withAttempt]; omega)]
    obtain ⟨nc, oc, lc, w, cp⟩ := st
    rcases he : tt.errData with _ | e <;>
      simp [hsr, he, withError, withAttempt,
        show lc + dbgStep W + dbgStep W + dbgStep W = lc + 3 * dbgStep W from by omega]
  | succ m =>
    rw [attempt_succ, attemptStep_error W opts bd thr (m + 1) _ b st tt hop,
      handleError_some_noRetry W opts tt (m + 1) bd thr _ _ _ hsr]
    rw [handleNonRetryableError_spec W opts tt (m + 1) false _ _
      (by simpa [withError, withAttempt] using hT)
      (by simp [withError, withAttempt]; omega)]
    obtain ⟨nc, oc, lc, w, cp⟩ := st
    rcases he : tt.errData with _ | e <;>
      simp [he, withError, withAttempt,
        show lc + dbgStep W + dbgStep W + dbgStep W = lc + 3 * dbgStep W from by omega]

/-- Claim C6: (first conjunct) an error judged non-retryable — `retryOnError`
present and returning `false` — is re-raised to the caller unchanged, never
wrapped, whether or not it is an `Error` instance, while the report records it
through the best-effort `Error`-shaped view (`thrownToError`); (second
conjunct) a thrown non-`Error` value is also re-raised verbatim on retry
exhaustion (the `error instanceof Error` guard skips the
`RetryAttemptsExceededError` wrap), while the report records the wrapper
`Error(String(value))` — the wrapping never alters what is raised. -/
theorem retry_nonretryable_raised_verbatim :
    (∀ (W : World) (opts : RetryOptions) (p : Thrown → Bool) (t : Thrown),
        validateOptions opts = none → opts.timeoutOpt = none →
        opts.retryOnErrorOpt = some p → p t = false →
        (∀ k, W.op k = .thrown t) → W.clock 0 ≤ W.clock 1 →
        (retryModel W opts).1 = .error (.original t) ∧
          (retryModel W opts).2.completed.map (fun R => R.errors) =
            (if opts.hasOnComplete then [[thrownToError t]] else []))
    ∧ (∀ (W : World) (opts : RetryOptions) (t : Thrown),
        validateOptions opts = none → opts.timeoutOpt = none →
        opts.retryOnErrorOpt = none → opts.retries = 0 → t.errData = none →
        (∀ k, W.op k = .thrown t) → W.clock 0 ≤ W.clock 1 →
        (retryModel W opts).1 = .error (.original t) ∧
          (retryModel W opts).2.completed.map (fun R => R.errors) =
            (if opts.hasOnComplete then [[JsError.mk "Error" t.strRepr none]] else [])) := by
  constructor
  · intro W opts p t hv hnt hrop hpt hop hclk
    rw [retryModel_noTimeout W opts hv hnt]
    rw [attempt_firstError_nonretryable W opts _ _ _ (initialReport (W.clock 0)) _ t (hop 0)
      (by simp [shouldRetryEval, hrop, hpt]) (by simpa [initialReport] using hclk)
      (by simp [initialReport])]
    by_cases hc : opts.hasOnComplete <;>
      simp [hc, fireOnComplete, withFailure, withError, withAttempt, initialReport]
  · intro W opts t hv hnt hnoe hr0 hnd hop hclk
    rw [retryModel_noTimeout W opts hv hnt]
    have hclamp : (max 0 opts.retries).toNat = 0 := by rw [hr0]; rfl
    rw [hclamp]
    rw [attempt_allFailing_zero W opts _ _ (initialReport (W.clock 0)) _ t (hop 0) hnoe
      (by simpa [initialReport] using hclk) (by simp [initialReport])]
    by_cases hc : opts.hasOnComplete <;>
      simp [hc, exhaustRaise, hnd, fireOnComplete, withFailure, withError, withAttempt,
        thrownToError, initialReport]

/-- Witness for C6's theorem: (a) a policy whose `retryOnError` rejects every
error re-raises `Error("X")` verbatim; (b) a policy with `retries = 0` and the
thrown non-`Error` string `"boom"` re-raises it verbatim while recording the
wrapper `Error("boom")`. -/
theorem retry_nonretryable_raised_verbatim_check :
    ((retryModel c3World c3Options).1 = .error (.original xThrown) ∧
      (retryModel c3World c3Options).2.completed.map (fun R => R.errors) =
        (if c3Options.hasOnComplete then [[thrownToError xThrown]] else [])) ∧
    ((retryModel c1World c1Options).1 = .error (.original boomThrown) ∧
      (retryModel c1World c1Options).2.completed.map (fun R => R.errors) =
        (if c1Options.hasOnComplete then [[JsError.mk "Error" boomThrown.strRepr none]]
         else [])) :=
  ⟨retry_nonretryable_raised_verbatim.1 c3World c3Options (fun _ => false) xThrown rfl rfl rfl
    rfl (fun _ => rfl) (by decide),
   retry_nonretryable_raised_verbatim.2 c1World c1Options boomThrown rfl rfl rfl rfl rfl
    (fun _ => rfl) (by decide)⟩

/-! ### Claim C7 (retryable results) -/

lemma handleSuccess_spec (W : World) (opts : RetryOptions) (result : JsVal) (b : RetryReport)
    (st : EngineState) (hT : b.startTime ≤ W.clock st.nowCalls) (hA : 0 ≤ b.attempts) :
    handleSuccess W opts result b st =
      (.ok result,
       fireOnComplete opts (withSuccess b (W.clock st.nowCalls))
         { st with nowCalls := st.nowCalls + 1 }) := by
  have h1 : ¬(W.clock st.nowCalls - b.startTime < 0) := by omega
  have h2 : ¬(b.attempts < 0) := by omega
  simp [handleSuccess, readNow, buildReport, withSuccess, h1, h2]

lemma handleRetryableResult_eq (W : World) (opts : RetryOptions) (result : JsVal) (rl : Nat)
    (bd thr : Int) (b : RetryReport) (st : EngineState) (k : RetryReport → EngineState → Res) :
    handleRetryableResult W opts result rl bd thr b st k =
      k (withDelay (withRetryReason b .result result (sanitizeEnabled opts) thr)
          (calculateDelay opts rl bd))
        { st with
          logCalls := st.logCalls + dbgStep W
          waits := st.waits ++
            (if calculateDelay opts rl bd ≠ 0 then [calculateDelay opts rl bd] else []) } := by
  unfold handleRetryableResult
  rw [loggerDebug_eq]
  split <;> simp_all

/-- A first-attempt retryable result with no retries left and a serializable
value falls through to success: the value is returned as-is with no retry
reason recorded. -/
lemma attempt_retryableResult_zero (W : World) (opts : RetryOptions) (bd thr : Int)
    (b : RetryReport) (st : EngineState) (v : JsVal)
    (hop : W.op st.opCalls = .ok v) (hret : resultRetryable opts v = true)
    (hser : stringifyThrows v = false)
    (hT : b.startTime ≤ W.clock st.nowCalls) (hA : 0 ≤ b.attempts) :
    attempt W opts bd none thr 0 b st =
      (.ok v,
       fireOnComplete opts (withSuccess (withAttempt b) (W.clock st.nowCalls))
         { st with
           nowCalls := st.nowCalls + 1
           opCalls := st.opCalls + 1
           logCalls := st.logCalls + 2 * dbgStep W }) := by
  rw [attempt_zero]
  unfold attemptStep
  simp only [isTimedOut, loggerDebug_eq, callOp, hop, hret, hser, Bool.false_eq_true,
    if_false, if_true, Bool.not_eq_true]
  rw [handleSuccess_spec W opts v (withAttempt b) _
    (by simpa [withAttempt] using hT) (by simp [withAttempt]; omega)]
  obtain ⟨nc, oc, lc, w, cp⟩ := st
  simp [toTryOutcome, tryCatch, withAttempt,
    show lc + dbgStep W + dbgStep W = lc + 2 * dbgStep W from by omega]

/-- A retryable result with retries left hands control to the recursion at
`retriesLeft - 1` with exactly one appended `"result"` retry reason (sanitized
per policy) and one appended delay entry, awaiting the delay only when it is
nonzero; when that recursion resolves, its outcome is the call's outcome. -/
lemma attempt_retryableResult_step (W : World) (opts : RetryOptions) (bd thr : Int) (m : Nat)
    (b : RetryReport) (st : EngineState) (v : JsVal)
    (hop : W.op st.opCalls = .ok v) (hret : resultRetryable opts v = true)
    (hok : ∃ w stF,
      attempt W opts bd none thr m
        (withDelay (withRetryReason (withAttempt b) .result v (sanitizeEnabled opts) thr)
          (calculateDelay opts (m + 1) bd))
        { st with
          opCalls := st.opCalls + 1
          logCalls := st.logCalls + 2 * dbgStep W
          waits := st.waits ++
            (if calculateDelay opts (m + 1) bd ≠ 0 then [calculateDelay opts (m + 1) bd]
             else []) } = (.ok w, stF)) :
    attempt W opts bd none thr (m + 1) b st =
      attempt W opts bd none thr m
        (withDelay (withRetryReason (withAttempt b) .result v (sanitizeEnabled opts) thr)
          (calculateDelay opts (m + 1) bd))
        { st with
          opCalls := st.opCalls + 1
          logCalls := st.logCalls + 2 * dbgStep W
          waits := st.waits ++
            (if calculateDelay opts (m + 1) bd ≠ 0 then [calculateDelay opts (m + 1) bd]
             else []) } := by
  obtain ⟨w, stF, hw⟩ := hok
  rw [attempt_succ]
  unfold attemptStep
  simp only [isTimedOut, loggerDebug_eq, callOp, hop, hret, if_true]
  rw [handleRetryableResult_eq]
  obtain ⟨nc, oc, lc, wl, cp⟩ := st
  have harith : lc + dbgStep W + dbgStep W = lc + 2 * dbgStep W := by omega
  simp only [harith] at hw ⊢
  rw [hw]
  simp [toTryOutcome, tryCatch]

/-- Claim C7 (amended: the fall-through to success at `retriesLeft = 0`
additionally requires the result to be serializable — for a result whose
`JSON.stringify` throws, the debug-log template literal on lines 403-407
throws inside the `try` block and the run fails instead; see the
counterexample): (first conjunct) with a `retryOnResult` predicate flagging
`v`, `retries = 0` and a serializable `v`, the call resolves to `v` as-is,
the report records no retry reason, and the single finalized report is a
success with one attempt; (second conjunct) with retries left, the engine
records the `"result"` retry reason (sanitized per policy) and the computed
delay, awaits the delay when nonzero, and recurses with `retriesLeft - 1`,
whose resolution is the call's resolution. -/
theorem retry_retryable_result_behavior :
    (∀ (W : World) (opts : RetryOptions) (p : JsVal → Bool) (v : JsVal),
        validateOptions opts = none → opts.timeoutOpt = none → opts.retries = 0 →
        opts.retryOnResultOpt = some p → p v = true → stringifyThrows v = false →
        W.op 0 = .ok v → W.clock 0 ≤ W.clock 1 →
        (retryModel W opts).1 = .ok v ∧
          (retryModel W opts).2.opCalls = 1 ∧
          (retryModel W opts).2.completed.map
              (fun R => (R.retryReasons, R.retryingOperationSucceeded, R.attempts)) =
            (if opts.hasOnComplete then [(none, true, (1 : Int))] else []))
    ∧ (∀ (W : World) (opts : RetryOptions) (bd thr : Int) (m : Nat) (b : RetryReport)
        (st : EngineState) (v : JsVal),
        W.op st.opCalls = .ok v → resultRetryable opts v = true →
        (∃ w stF,
          attempt W opts bd none thr m
            (withDelay (withRetryReason (withAttempt b) .result v (sanitizeEnabled opts) thr)
              (calculateDelay opts (m + 1) bd))
            { st with
              opCalls := st.opCalls + 1
              logCalls := st.logCalls + 2 * dbgStep W
              waits := st.waits ++
                (if calculateDelay opts (m + 1) bd ≠ 0 then [calculateDelay opts (m + 1) bd]
                 else []) } = (.ok w, stF)) →
        attempt W opts bd none thr (m + 1) b st =
          attempt W opts bd none thr m
            (withDelay (withRetryReason (withAttempt b) .result v (sanitizeEnabled opts) thr)
              (calculateDelay opts (m + 1) bd))
            { st with
              opCalls := st.opCalls + 1
              logCalls := st.logCalls + 2 * dbgStep W
              waits := st.waits ++
                (if calculateDelay opts (m + 1) bd ≠ 0 then [calculateDelay opts (m + 1) bd]
                 else []) }) := by
  constructor
  · intro W opts p v hv hnt hr0 hrop hpv hser hop hclk
    rw [retryModel_noTimeout W opts hv hnt]
    have hclamp : (max 0 opts.retries).toNat = 0 := by rw [hr0]; rfl
    rw [hclamp]
    rw [attempt_retryableResult_zero W opts _ _ (initialReport (W.clock 0)) _ v hop
      (by simp [resultRetryable, hrop, hpv]) hser (by simpa [initialReport] using hclk)
      (by simp [initialReport])]
    by_cases hc : opts.hasOnComplete <;>
      simp [hc, fireOnComplete, withSuccess, withAttempt, initialReport]
  · intro W opts bd thr m b st v hop hret hok
    exact attempt_retryableResult_step W opts bd thr m b st v hop hret hok

/-- A serializable retryable "pending" value for the C7 witness. -/
def c7Val : JsVal := .obj (some "Object") (some "pend")

def c7aWorld : World :=
  { clock := fun _ => 0, op := fun _ => .ok c7Val, logLevel := .info,
    handler := fun _ => .ok () }

def c7aOptions : RetryOptions :=
  { retries := 0, delayOpt := some 0, exponentialBackoff := false,
    retryOnErrorOpt := none, retryOnResultOpt := some (fun v => v == c7Val),
    timeoutOpt := none, hasOnComplete := true, sanitizeRetryReasonsOpt := none,
    sanitizationThresholdOpt := none }

def c7bWorld : World :=
  { clock := fun _ => 0,
    op := fun k => if k = 0 then .ok c7Val else .ok (.str "done"),
    logLevel := .info, handler := fun _ => .ok () }

def c7bOptions : RetryOptions :=
  { retries := 1, delayOpt := some 7, exponentialBackoff := false,
    retryOnErrorOpt := none, retryOnResultOpt := some (fun v => v == c7Val),
    timeoutOpt := none, hasOnComplete := true, sanitizeRetryReasonsOpt := none,
    sanitizationThresholdOpt := none }

/-- Witness for C7's theorem: (a) with `retries = 0` a retryable serializable
result is returned as-is after one invocation with no retry reason recorded;
(b) with a retry left, one `"result"` reason and the delay `7` are recorded
and the run continues as the recursion at `retriesLeft - 1`. -/
theorem retry_retryable_result_behavior_check :
    ((retryModel c7aWorld c7aOptions).1 = .ok c7Val ∧
      (retryModel c7aWorld c7aOptions).2.opCalls = 1 ∧
      (retryModel c7aWorld c7aOptions).2.completed.map
          (fun R => (R.retryReasons, R.retryingOperationSucceeded, R.attempts)) =
        (if c7aOptions.hasOnComplete then [(none, true, (1 : Int))] else []))
    ∧ attempt c7bWorld c7bOptions 7 none 500 1 (initialReport 0) EngineState.init =
        attempt c7bWorld c7bOptions 7 none 500 0
          (withDelay
            (withRetryReason (withAttempt (initialReport 0)) .result c7Val
              (sanitizeEnabled c7bOptions) 500)
            (calculateDelay c7bOptions 1 7))
          { EngineState.init with
            opCalls := EngineState.init.opCalls + 1
            logCalls := EngineState.init.logCalls + 2 * dbgStep c7bWorld
            waits := EngineState.init.waits ++
              (if calculateDelay c7bOptions 1 7 ≠ 0 then [calculateDelay c7bOptions 1 7]
               else []) } :=
  ⟨retry_retryable_result_behavior.1 c7aWorld c7aOptions (fun v => v == c7Val) c7Val rfl rfl
    rfl rfl rfl rfl rfl (by decide),
   retry_retryable_result_behavior.2 c7bWorld c7bOptions 7 500 0 (initialReport 0)
    EngineState.init c7Val rfl rfl
    ⟨.str "done",
     (attempt c7bWorld c7bOptions 7 none 500 0
       (withDelay
         (withRetryReason (withAttempt (initialReport 0)) .result c7Val
           (sanitizeEnabled c7bOptions) 500)
         (calculateDelay c7bOptions 1 7))
       { EngineState.init with
         opCalls := EngineState.init.opCalls + 1
         logCalls := EngineState.init.logCalls + 2 * dbgStep c7bWorld
         waits := EngineState.init.waits ++
           (if calculateDelay c7bOptions 1 7 ≠ 0 then [calculateDelay c7bOptions 1 7]
            else []) }).2, rfl⟩⟩

/-- A circular (unserializable) object. -/
def circVal : JsVal := .obj (some "Object") none

def c7cWorld : World :=
  { clock := fun _ => 0, op := fun _ => .ok circVal, logLevel := .info,
    handler := fun _ => .ok () }

def c7cOptions : RetryOptions :=
  { retries := 0, delayOpt := some 0, exponentialBackoff := false,
    retryOnErrorOpt := none, retryOnResultOpt := some (fun _ => true),
    timeoutOpt := none, hasOnComplete := true, sanitizeRetryReasonsOpt := none,
    sanitizationThresholdOpt := none }

def outcomeIsOk : Except Raised JsVal → Bool
  | .ok _ => true
  | .error _ => false

/-- Claim C7, counterexample: a retryable result returned with zero retries
remaining is NOT always resolved as-is — for a circular result, the debug-log
template literal `JSON.stringify(result)` (lines 403-407) throws a `TypeError`
inside the `try` block, which the `catch` treats as an operation error, so the
call rejects with `RetryAttemptsExceededError` wrapping the `TypeError`
instead of resolving to the value. -/
theorem retry_retryable_result_circular_rejects :
    outcomeIsOk (retryModel c7cWorld c7cOptions).1 = false ∧
      (retryModel c7cWorld c7cOptions).1 =
        .error (.attemptsExceeded
          "Maximum retry attempts (0) exceeded: Converting circular structure to JSON"
          (.mk "TypeError" "Converting circular structure to JSON" none)) :=
  ⟨rfl, rfl⟩

/-! ### Claim C10 (one delay entry per retry reason)

The invariant holds because the two builder operations are only ever applied
back-to-back (`withRetryReason(...).withDelay(...)` in `handleRetryableResult`
and `retryAfterError`) and no other operation touches either sequence. -/

/-- One delay entry per retry reason; an absent `retryReasons` counts as zero
entries. -/
def balancedReport (r : RetryReport) : Prop :=
  r.delays.length = (r.retryReasons.getD []).length

def allBalanced (l : List RetryReport) : Prop := ∀ r ∈ l, balancedReport r

lemma balancedReport_initial (s : Int) : balancedReport (initialReport s) := by
  simp [balancedReport, initialReport]

lemma balancedReport_withAttempt {b : RetryReport} (h : balancedReport b) :
    balancedReport (withAttempt b) := h

lemma balancedReport_withError {b : RetryReport} (t : Thrown) (h : balancedReport b) :
    balancedReport (withError b t) := h

lemma balancedReport_withSuccess {b : RetryReport} (c : Int) (h : balancedReport b) :
    balancedReport (withSuccess b c) := h

lemma balancedReport_withTimeout {b : RetryReport} (c : Int) (h : balancedReport b) :
    balancedReport (withTimeout b c) := h

lemma balancedReport_withFailure {b : RetryReport} (c : Int) (h : balancedReport b) :
    balancedReport (withFailure b c) := h

/-- The paired append: one retry reason followed by one delay preserves the
invariant. -/
lemma balancedReport_pair {b : RetryReport} (h : balancedReport b) (ty : ReasonType)
    (v : JsVal) (s : Bool) (th : Int) (d : Int) :
    balancedReport (withDelay (withRetryReason b ty v s th) d) := by
  simp only [balancedReport, withDelay, withRetryReason] at h ⊢
  simp [h]

lemma buildReport_ok_eq {r R : RetryReport} (h : buildReport r = .ok R) : R = r := by
  unfold buildReport at h
  split_ifs at h
  simp_all

lemma fireOnComplete_balanced (opts : RetryOptions) (R : RetryReport) (st : EngineState)
    (hR : balancedReport R) (hst : allBalanced st.completed) :
    allBalanced (fireOnComplete opts R st).completed := by
  unfold fireOnComplete
  split
  · intro r hr
    rcases List.mem_append.mp hr with hr | hr
    · exact hst r hr
    · rcases List.mem_singleton.mp hr with rfl
      exact hR
  · exact hst

lemma isTimedOut_completed (W : World) (dl : Option Int) (st : EngineState) :
    (isTimedOut W dl st).2.completed = st.completed := by
  rcases dl with _ | d <;> simp [isTimedOut, readNow]
  split <;> simp [readNow]

lemma handleTimeout_balanced (W : World) (opts : RetryOptions) (b : RetryReport)
    (st : EngineState) (hb : balancedReport b) (hst : allBalanced st.completed) :
    allBalanced (handleTimeout W opts b st).2.completed := by
  unfold handleTimeout
  rw [loggerDebug_eq]
  simp only [readNow]
  rcases hbr : buildReport (withTimeout b (W.clock st.nowCalls)) with m | fr
  · simpa using hst
  · have hfr := buildReport_ok_eq hbr
    subst hfr
    exact fireOnComplete_balanced _ _ _ (balancedReport_withTimeout _ hb) (by simpa using hst)

lemma handleSuccess_balanced (W : World) (opts : RetryOptions) (v : JsVal) (b : RetryReport)
    (st : EngineState) (hb : balancedReport b) (hst : allBalanced st.completed) :
    allBalanced (handleSuccess W opts v b st).2.completed := by
  unfold handleSuccess
  simp only [readNow]
  rcases hbr : buildReport (withSuccess b (W.clock st.nowCalls)) with m | fr
  · simpa using hst
  · have hfr := buildReport_ok_eq hbr
    subst hfr
    exact fireOnComplete_balanced _ _ _ (balancedReport_withSuccess _ hb) (by simpa using hst)

lemma handleNonRetryableError_balanced (W : World) (opts : RetryOptions) (t : Thrown)
    (rl : Nat) (sr : Bool) (b : RetryReport) (st : EngineState)
    (hb : balancedReport b) (hst : allBalanced st.completed) :
    allBalanced (handleNonRetryableError W opts t rl sr b st).2.completed := by
  unfold handleNonRetryableError
  rw [loggerDebug_eq]
  simp only [readNow]
  rcases hbr : buildReport (withFailure b (W.clock st.nowCalls)) with m | fr
  · simpa using hst
  · have hfr := buildReport_ok_eq hbr
    subst hfr
    have hfb := fireOnComplete_balanced opts (withFailure b (W.clock st.nowCalls))
      { st with nowCalls := st.nowCalls + 1, logCalls := st.logCalls + dbgStep W }
      (balancedReport_withFailure _ hb) (by simpa using hst)
    rcases t.errData with _ | e <;> cases (rl == 0 && sr) <;> simpa using hfb

lemma handleError_balanced (W : World) (opts : RetryOptions) (t : Thrown) (rl : Nat)
    (bd thr : Int) (retryK : Option (RetryReport → EngineState → Res)) (b : RetryReport)
    (st : EngineState)
    (hk : ∀ k, retryK = some k → ∀ b2 st2, balancedReport b2 → allBalanced st2.completed →
      allBalanced (k b2 st2).2.completed)
    (hb : balancedReport b) (hst : allBalanced st.completed) :
    allBalanced (handleError W opts t rl bd thr retryK b st).2.completed := by
  rcases retryK with _ | k
  · rw [handleError_none]
    exact handleNonRetryableError_balanced _ _ _ _ _ _ _
      (balancedReport_withError _ hb) (by simpa using hst)
  · rcases hsr : shouldRetryEval opts t with _ | _
    · rw [handleError_some_noRetry _ _ _ _ _ _ _ _ _ hsr]
      exact handleNonRetryableError_balanced _ _ _ _ _ _ _
        (balancedReport_withError _ hb) (by simpa using hst)
    · rw [handleError_retry _ _ _ _ _ _ _ _ _ hsr, retryAfterError_eq]
      exact hk k rfl _ _
        (balancedReport_pair (balancedReport_withError _ hb) _ _ _ _ _)
        (by simpa using hst)

lemma toTryOutcome_snd (r : Res) : (toTryOutcome r).2 = r.2 := by
  rcases r with ⟨out, s⟩
  cases out <;> rfl

lemma tryCatch_balanced (W : World) (opts : RetryOptions) (bd thr : Int) (rl : Nat)
    (retryK : Option (RetryReport → EngineState → Res)) (b1 : RetryReport)
    (X : Except Thrown JsVal × EngineState)
    (hk : ∀ k, retryK = some k → ∀ b2 st2, balancedReport b2 → allBalanced st2.completed →
      allBalanced (k b2 st2).2.completed)
    (hb1 : balancedReport b1) (hX : allBalanced X.2.completed) :
    allBalanced (tryCatch W opts bd thr rl retryK b1 X).2.completed := by
  rcases X with ⟨out, st5⟩
  cases out with
  | ok v => exact hX
  | error t => exact handleError_balanced _ _ _ _ _ _ _ _ _ hk hb1 hX

lemma attemptStep_balanced (W : World) (opts : RetryOptions) (bd : Int) (dl : Option Int)
    (thr : Int) (rl : Nat) (retryK : Option (RetryReport → EngineState → Res))
    (b : RetryReport) (st : EngineState)
    (hk : ∀ k, retryK = some k → ∀ b2 st2, balancedReport b2 → allBalanced st2.completed →
      allBalanced (k b2 st2).2.completed)
    (hb : balancedReport b) (hst : allBalanced st.completed) :
    allBalanced (attemptStep W opts bd dl thr rl retryK b st).2.completed := by
  unfold attemptStep
  rcases hti : isTimedOut W dl st with ⟨tko, st1⟩
  have hst1 : allBalanced st1.completed := by
    have h := isTimedOut_completed W dl st
    rw [hti] at h
    rw [h]
    exact hst
  cases tko
  · simp only [Bool.false_eq_true, if_false]
    have hst2 : allBalanced (loggerDebug W st1).completed := by
      rw [loggerDebug_eq]
      simpa using hst1
    simp only [callOp]
    rcases hopr : W.op (loggerDebug W st1).opCalls with v | t
    · simp only [hopr]
      by_cases hret : resultRetryable opts v = true
      · simp only [hret, if_true]
        rcases retryK with _ | k
        · by_cases hser : stringifyThrows v = true
          · simp only [hser, if_true]
            exact tryCatch_balanced _ _ _ _ _ _ _ _ hk (balancedReport_withAttempt hb)
              (by simpa using hst2)
          · simp only [Bool.not_eq_true] at hser
            simp only [hser, Bool.false_eq_true, if_false]
            refine tryCatch_balanced _ _ _ _ _ _ _ _ hk (balancedReport_withAttempt hb) ?_
            rw [toTryOutcome_snd]
            refine handleSuccess_balanced _ _ _ _ _ (balancedReport_withAttempt hb) ?_
            rw [loggerDebug_eq]
            simpa using hst2
        · simp only
          refine tryCatch_balanced _ _ _ _ _ _ _ _ hk (balancedReport_withAttempt hb) ?_
          rw [toTryOutcome_snd, handleRetryableResult_eq]
          refine hk k rfl _ _ (balancedReport_pair (balancedReport_withAttempt hb) _ _ _ _ _)
            ?_
          simpa using hst2
      · simp only [Bool.not_eq_true] at hret
        simp only [hret, Bool.false_eq_true, if_false]
        refine tryCatch_balanced _ _ _ _ _ _ _ _ hk (balancedReport_withAttempt hb) ?_
        rw [toTryOutcome_snd]
        exact handleSuccess_balanced _ _ _ _ _ (balancedReport_withAttempt hb)
          (by simpa using hst2)
    · simp only [hopr]
      exact tryCatch_balanced _ _ _ _ _ _ _ _ hk (balancedReport_withAttempt hb)
        (by simpa using hst2)
  · simp only [if_true]
    exact handleTimeout_balanced _ _ _ _ (balancedReport_withAttempt hb) hst1

lemma attempt_balanced (W : World) (opts : RetryOptions) (bd : Int) (dl : Option Int)
    (thr : Int) :
    ∀ (m : Nat) (b : RetryReport) (st : EngineState), balancedReport b →
      allBalanced st.completed → allBalanced (attempt W opts bd dl thr m b st).2.completed := by
  intro m
  induction m with
  | zero =>
    intro b st hb hst
    exact attemptStep_balanced W opts bd dl thr 0 none b st (by intro k hko; cases hko) hb hst
  | succ m ih =>
    intro b st hb hst
    refine attemptStep_balanced W opts bd dl thr (m + 1) _ b st ?_ hb hst
    intro k hko b2 st2 hb2 hst2
    cases hko
    exact ih b2 st2 hb2 hst2

lemma retrySetup_state_completed (W : World) (opts : RetryOptions) :
    (retrySetup W opts).state.completed = [] := by
  rcases h : opts.timeoutOpt with _ | t0
  · simp [retrySetup, h, readNow, EngineState.init]
  · simp only [retrySetup, h, readNow, EngineState.init]
    split <;> simp [readNow]

lemma calculateDelay_zeroBase (opts : RetryOptions) (rl : Nat) :
    calculateDelay opts rl 0 = 0 := by
  simp [calculateDelay]

lemma allFailDelays_zeroBase (opts : RetryOptions) :
    ∀ m, allFailDelays opts 0 m = List.replicate m 0
  | 0 => rfl
  | m + 1 => by
    simp [allFailDelays, calculateDelay_zeroBase, allFailDelays_zeroBase opts m,
      List.replicate_succ]

lemma allFailWaits_zeroBase (opts : RetryOptions) : ∀ m, allFailWaits opts 0 m = []
  | 0 => rfl
  | m + 1 => by
    simp [allFailWaits, calculateDelay_zeroBase, allFailWaits_zeroBase opts m]

/-- Claim C10: (first conjunct) in every finalized report delivered to
`onComplete`, the number of delay entries equals the number of retry-reason
entries, an absent `retryReasons` counting as zero — every retry decision
appends exactly one reason and one delay and nothing else appends to either
sequence; (second conjunct) a delay entry is recorded even when the computed
delay is `0` and the `timer.delay` wait is skipped: a continuously failing run
with `baseDelay = 0` records `n` zero delays while `timer.delay` is never
invoked. -/
theorem report_delays_reasons_balanced :
    (∀ (W : World) (opts : RetryOptions) (r : RetryReport),
        r ∈ (retryModel W opts).2.completed →
        r.delays.length = (r.retryReasons.getD []).length)
    ∧ (∀ (W : World) (opts : RetryOptions) (n : Nat) (t : Nat → Thrown),
        validateOptions opts = none → opts.retries = (n : Int) → opts.delayOpt = some 0 →
        opts.retryOnErrorOpt = none → opts.timeoutOpt = none → opts.hasOnComplete = true →
        (∀ k, W.op k = .thrown (t k)) → W.clock 0 ≤ W.clock 1 →
        (retryModel W opts).2.completed.map (fun R => R.delays) = [List.replicate n 0] ∧
          (retryModel W opts).2.waits = []) := by
  constructor
  · intro W opts r hr
    rcases hv : validateOptions opts with _ | msg
    · have hbal := attempt_balanced W opts (retrySetup W opts).baseDelay
        (retrySetup W opts).deadline (retrySetup W opts).threshold
        (retrySetup W opts).retries (initialReport (retrySetup W opts).startTime)
        (retrySetup W opts).state (balancedReport_initial _)
        (by rw [retrySetup_state_completed]; intro x hx; cases hx)
      have hmodel : retryModel W opts =
          attempt W opts (retrySetup W opts).baseDelay (retrySetup W opts).deadline
            (retrySetup W opts).threshold (retrySetup W opts).retries
            (initialReport (retrySetup W opts).startTime) (retrySetup W opts).state := by
        simp [retryModel, hv]
      rw [hmodel] at hr
      exact hbal r hr
    · simp [retryModel, hv, EngineState.init] at hr
  · intro W opts n t hv hr hd0 hnoe hnt hoc hop hclk
    rw [retryModel_noTimeout W opts hv hnt]
    have hclamp : (max 0 opts.retries).toNat = n := by rw [hr]; omega
    have hbase : max 0 (opts.delayOpt.getD 0) = 0 := by rw [hd0]; rfl
    rw [hclamp, hbase]
    rw [attempt_allFailing W opts _ _ t hop hnoe n (initialReport (W.clock 0)) _
      (by simp [initialReport]) (by simpa [initialReport] using hclk)]
    simp [hoc, initialReport, allFailDelays_zeroBase, allFailWaits_zeroBase]

/-- The single report of the C1-witness run (three failed attempts of
`Error("X")`, two zero delays, two recorded error reasons). -/
def xReport : RetryReport :=
  { startTime := 0, totalTime := 0, attempts := 3
    errors := [.mk "Error" "X" none, .mk "Error" "X" none, .mk "Error" "X" none]
    delays := [0, 0], retryingOperationSucceeded := false, timedOut := none
    retryReasons := some [⟨.error, xThrown.val⟩, ⟨.error, xThrown.val⟩] }

/-- Witness for C10's theorem: the report delivered by the `retries = 2`
always-failing run has two delay entries and two retry reasons, and with
`baseDelay = 0` the delays are recorded while no wait is ever scheduled. -/
theorem report_delays_reasons_balanced_check :
    (xReport.delays.length = (xReport.retryReasons.getD []).length)
    ∧ ((retryModel xWorld xOptions).2.completed.map (fun R => R.delays) =
        [List.replicate 2 0] ∧
      (retryModel xWorld xOptions).2.waits = []) :=
  ⟨report_delays_reasons_balanced.1 xWorld xOptions xReport (List.Mem.head _),
   report_delays_reasons_balanced.2 xWorld xOptions 2 (fun _ => xThrown) rfl rfl rfl rfl rfl
    rfl (fun _ => rfl) (by decide)⟩

end RetrySpec
